import Mathlib

/-!
# ATtiny412 Sleeping Lighthouse: an embedding of `main.c`

The sketch drives one LED on PA1 in a "three flashes, long pause" pattern and
keeps the MCU in POWER DOWN sleep between flashes.  Every C function of
`main.c` is rendered as a Lean function on an explicit machine state:

* `Regs` holds the memory-mapped registers the sketch touches and the one
  global variable `rtcIntSemaphore`;
* `Machine` adds an event log: every function call made by the sketch and
  every register store is appended to `trace`, tagged with the call depth at
  which the statement stands and with the register file as it was when the
  statement started.

Bytes are natural numbers; the strobe registers (`DIRSET`, `DIRCLR`, `OUTSET`,
`OUTCLR`, `OUTTGL`) act on `DIR` and `OUT` the way the tinyAVR PORT peripheral
defines them.  The interrupt handler that runs when a halted CPU is woken is a
parameter of `sleep_cpu` (the interrupt vector); the sketch installs
`ISR_RTC_PIT`.
-/

namespace Lighthouse

/-! ## Device header constants (avr/io.h for the ATtiny412) -/

def PIN0_bm : Nat := 0x01
def PIN1_bm : Nat := 0x02
def PIN2_bm : Nat := 0x04
def PIN3_bm : Nat := 0x08
def PIN6_bm : Nat := 0x40
def PIN7_bm : Nat := 0x80
/-- Pin control value: digital input buffer disabled. -/
def PORT_ISC_INPUT_DISABLE_gc : Nat := 0x04
/-- Periodic interrupt flag / enable bit of the RTC PIT. -/
def RTC_PI_bm : Nat := 0x01
/-- PIT enable bit of `RTC.PITCTRLA`. -/
def RTC_PITEN_bm : Nat := 0x01
/-- PIT period selection "512 cycles" (field value 8 in bits 6:3). -/
def RTC_PERIOD_CYC512_gc : Nat := 0x40
/-- Mask of the PERIOD field of `RTC.PITCTRLA` (bits 6:3). -/
def RTC_PERIOD_gm : Nat := 0x78
def RTC_CLKSEL_INT1K_gc : Nat := 0x01
def CLKCTRL_RUNSTDBY_bm : Nat := 0x02
def CLKCTRL_OSC32KS_bm : Nat := 0x20
/-- Sleep mode selection "power down" (field value 2 in bits 2:1). -/
def SLPCTRL_SMODE_PDOWN_gc : Nat := 0x04
/-- Mask of the SMODE field of `SLPCTRL.CTRLA` (bits 2:1). -/
def SLPCTRL_SMODE_gm : Nat := 0x06
def SLPCTRL_SEN_bm : Nat := 0x01
/-- Key written to `CPU.CCP` to unlock a protected I/O register. -/
def CCP_IOREG_gc : Nat := 0xD8

/-! ## Machine state -/

/-- The registers used by the sketch, and its global variable. -/
structure Regs where
  PORTA_DIR : Nat
  PORTA_OUT : Nat
  PORTA_PIN0CTRL : Nat
  PORTA_PIN1CTRL : Nat
  PORTA_PIN2CTRL : Nat
  PORTA_PIN3CTRL : Nat
  PORTA_PIN4CTRL : Nat
  PORTA_PIN5CTRL : Nat
  PORTA_PIN6CTRL : Nat
  PORTA_PIN7CTRL : Nat
  CPU_CCP : Nat
  CLKCTRL_OSC32KCTRLA : Nat
  CLKCTRL_MCLKSTATUS : Nat
  RTC_CLKSEL : Nat
  RTC_PITCTRLA : Nat
  RTC_PITSTATUS : Nat
  RTC_PITINTCTRL : Nat
  RTC_PITINTFLAGS : Nat
  SLPCTRL_CTRLA : Nat
  rtcIntSemaphore : Nat
  deriving DecidableEq, Repr

/-- Pin control register of pin `n` of port A. -/
def Regs.PINnCTRL (r : Regs) : Nat → Nat
  | 0 => r.PORTA_PIN0CTRL
  | 1 => r.PORTA_PIN1CTRL
  | 2 => r.PORTA_PIN2CTRL
  | 3 => r.PORTA_PIN3CTRL
  | 4 => r.PORTA_PIN4CTRL
  | 5 => r.PORTA_PIN5CTRL
  | 6 => r.PORTA_PIN6CTRL
  | _ => r.PORTA_PIN7CTRL

/-- Store targets: I/O registers (strobe registers included) and the global. -/
inductive Reg where
  | PORTA_DIRSET | PORTA_DIRCLR | PORTA_OUTSET | PORTA_OUTCLR | PORTA_OUTTGL
  | PORTA_PINCTRL (n : Nat)
  | CPU_CCP | CLKCTRL_OSC32KCTRLA
  | RTC_CLKSEL | RTC_PITCTRLA | RTC_PITINTCTRL | RTC_PITINTFLAGS
  | SLPCTRL_CTRLA
  | rtcIntSemaphore
  deriving DecidableEq, Repr

/-- What the log records: a call of one of the functions, or a store. -/
inductive Event where
  | setup | loop | ISR_RTC_PIT
  | initSerialGPIO | init32kOscRTCPIT | initSleepMode
  | sleepNCycles (val : Nat) | sleep_cpu | disableAllPeripherals
  | ledOn | ledOff | ledToggle
  | diagnosticPinHigh | diagnosticPinLow | diagnosticPinToggle
  | flashByte (val : Nat) | delay (ms : Nat)
  | write (r : Reg) (v : Nat)
  deriving DecidableEq, Repr

/-- One log entry: the call depth of the statement, the event, and the
register file at the moment the statement starts. -/
structure Entry where
  depth : Nat
  ev : Event
  regs : Regs
  deriving DecidableEq, Repr

/-- Registers, current call depth and the log so far. -/
structure Machine where
  regs : Regs
  depth : Nat
  trace : List Entry
  deriving DecidableEq, Repr

/-- Append an event to the log. -/
def emit (e : Event) (s : Machine) : Machine :=
  { s with trace := s.trace ++ [⟨s.depth, e, s.regs⟩] }

/-- A function call: the call is logged in the frame of the caller, the body
runs one level deeper, and control returns to the frame of the caller. -/
def call (e : Event) (body : Machine → Machine) (s : Machine) : Machine :=
  { body { emit e s with depth := s.depth + 1 } with depth := s.depth }

/-- A store: logged, then applied to the register file. -/
def store (r : Reg) (v : Nat) (upd : Regs → Regs) (s : Machine) : Machine :=
  { emit (.write r v) s with regs := upd s.regs }

/-! ## Register stores -/

/-- Store `PORTA.DIRSET = v`: the pins selected by `v` become outputs. -/
def PORTA_DIRSET (v : Nat) : Machine → Machine :=
  store .PORTA_DIRSET v fun r => { r with PORTA_DIR := r.PORTA_DIR ||| v }

/-- Store `PORTA.DIRCLR = v`: the pins selected by `v` become inputs. -/
def PORTA_DIRCLR (v : Nat) : Machine → Machine :=
  store .PORTA_DIRCLR v fun r => { r with PORTA_DIR := r.PORTA_DIR &&& (0xFF ^^^ v) }

/-- Store `PORTA.OUTSET = v`: the output latches selected by `v` are driven high. -/
def PORTA_OUTSET (v : Nat) : Machine → Machine :=
  store .PORTA_OUTSET v fun r => { r with PORTA_OUT := r.PORTA_OUT ||| v }

/-- Store `PORTA.OUTCLR = v`: the output latches selected by `v` are driven low. -/
def PORTA_OUTCLR (v : Nat) : Machine → Machine :=
  store .PORTA_OUTCLR v fun r => { r with PORTA_OUT := r.PORTA_OUT &&& (0xFF ^^^ v) }

/-- Store `PORTA.OUTTGL = v`: the output latches selected by `v` are inverted. -/
def PORTA_OUTTGL (v : Nat) : Machine → Machine :=
  store .PORTA_OUTTGL v fun r => { r with PORTA_OUT := r.PORTA_OUT ^^^ v }

def PORTA_PIN0CTRL (v : Nat) : Machine → Machine :=
  store (.PORTA_PINCTRL 0) v fun r => { r with PORTA_PIN0CTRL := v }
def PORTA_PIN1CTRL (v : Nat) : Machine → Machine :=
  store (.PORTA_PINCTRL 1) v fun r => { r with PORTA_PIN1CTRL := v }
def PORTA_PIN2CTRL (v : Nat) : Machine → Machine :=
  store (.PORTA_PINCTRL 2) v fun r => { r with PORTA_PIN2CTRL := v }
def PORTA_PIN3CTRL (v : Nat) : Machine → Machine :=
  store (.PORTA_PINCTRL 3) v fun r => { r with PORTA_PIN3CTRL := v }
def PORTA_PIN6CTRL (v : Nat) : Machine → Machine :=
  store (.PORTA_PINCTRL 6) v fun r => { r with PORTA_PIN6CTRL := v }
def PORTA_PIN7CTRL (v : Nat) : Machine → Machine :=
  store (.PORTA_PINCTRL 7) v fun r => { r with PORTA_PIN7CTRL := v }

/-- Macro `_PROTECTED_WRITE(CLKCTRL.OSC32KCTRLA, v)`: the unlock key goes to
`CPU.CCP`, then the value goes to the protected register. -/
def PROTECTED_WRITE_OSC32KCTRLA (v : Nat) (s : Machine) : Machine :=
  let s := store .CPU_CCP CCP_IOREG_gc (fun r => { r with CPU_CCP := CCP_IOREG_gc }) s
  store .CLKCTRL_OSC32KCTRLA v (fun r => { r with CLKCTRL_OSC32KCTRLA := v }) s

def RTC_CLKSEL (v : Nat) : Machine → Machine :=
  store .RTC_CLKSEL v fun r => { r with RTC_CLKSEL := v }

def RTC_PITCTRLA (v : Nat) : Machine → Machine :=
  store .RTC_PITCTRLA v fun r => { r with RTC_PITCTRLA := v }

def RTC_PITINTCTRL (v : Nat) : Machine → Machine :=
  store .RTC_PITINTCTRL v fun r => { r with RTC_PITINTCTRL := v }

/-- Store `RTC.PITINTFLAGS = v`: writing a one to a flag bit clears the flag. -/
def RTC_PITINTFLAGS (v : Nat) : Machine → Machine :=
  store .RTC_PITINTFLAGS v fun r =>
    { r with RTC_PITINTFLAGS := r.RTC_PITINTFLAGS &&& (0xFF ^^^ v) }

/-- Store `SLPCTRL.CTRLA = v`. -/
def SLPCTRL_CTRLA (v : Nat) : Machine → Machine :=
  store .SLPCTRL_CTRLA v fun r => { r with SLPCTRL_CTRLA := v }

/-- Statement `SLPCTRL.CTRLA |= v`: read, or, write back. -/
def SLPCTRL_CTRLA_or (v : Nat) (s : Machine) : Machine :=
  SLPCTRL_CTRLA (s.regs.SLPCTRL_CTRLA ||| v) s

/-- Assignment `rtcIntSemaphore = v`. -/
def set_rtcIntSemaphore (v : Nat) : Machine → Machine :=
  store .rtcIntSemaphore v fun r => { r with rtcIntSemaphore := v }

/-- The busy wait `while (!(CLKCTRL.MCLKSTATUS & CLKCTRL_OSC32KS_bm));` stores nothing and
is left only once the oscillator reports stable, so on exit the status bit is
set.  An oscillator that never stabilises (the loop is then never left) is not
described here. -/
def wait_OSC32KS (s : Machine) : Machine :=
  { s with regs := { s.regs with
      CLKCTRL_MCLKSTATUS := s.regs.CLKCTRL_MCLKSTATUS ||| CLKCTRL_OSC32KS_bm } }

/-- The busy wait `while (RTC.PITSTATUS > 0);` stores nothing and is left only once the
synchronisation-busy status reads zero. -/
def wait_PITSTATUS (s : Machine) : Machine :=
  { s with regs := { s.regs with RTC_PITSTATUS := 0 } }

/-- Arduino `delay(ms)`: a busy wait; it touches no register of the model. -/
def delay (ms : Nat) : Machine → Machine :=
  emit (.delay ms)

/-! ## The functions of `main.c` -/

/-- LED on PA1, active high. -/
def ledOn : Machine → Machine := call .ledOn (PORTA_OUTSET PIN1_bm)
def ledOff : Machine → Machine := call .ledOff (PORTA_OUTCLR PIN1_bm)
def ledToggle : Machine → Machine := call .ledToggle (PORTA_OUTTGL PIN1_bm)

/-- Scope diagnostic pin PA2. -/
def diagnosticPinHigh : Machine → Machine := call .diagnosticPinHigh (PORTA_OUTSET PIN2_bm)
def diagnosticPinLow : Machine → Machine := call .diagnosticPinLow (PORTA_OUTCLR PIN2_bm)
def diagnosticPinToggle : Machine → Machine := call .diagnosticPinToggle (PORTA_OUTTGL PIN2_bm)

/-- Body of `ISR(RTC_PIT_vect)`. -/
def ISR_RTC_PIT : Machine → Machine :=
  call .ISR_RTC_PIT fun s =>
    let s := RTC_PITINTFLAGS RTC_PI_bm s
    set_rtcIntSemaphore 1 s

def initSerialGPIO : Machine → Machine :=
  call Event.initSerialGPIO fun s =>
    let s := PORTA_DIRSET PIN1_bm s
    let s := PORTA_OUTCLR PIN1_bm s
    let s := PORTA_DIRSET PIN2_bm s
    PORTA_OUTCLR PIN2_bm s

def init32kOscRTCPIT : Machine → Machine :=
  call .init32kOscRTCPIT fun s =>
    let s := PROTECTED_WRITE_OSC32KCTRLA CLKCTRL_RUNSTDBY_bm s
    let s := RTC_CLKSEL RTC_CLKSEL_INT1K_gc s
    let s := RTC_PITCTRLA (RTC_PERIOD_CYC512_gc ||| RTC_PITEN_bm) s
    let s := wait_OSC32KS s
    let s := wait_PITSTATUS s
    RTC_PITINTCTRL RTC_PI_bm s

def initSleepMode : Machine → Machine :=
  call .initSleepMode fun s =>
    let s := SLPCTRL_CTRLA SLPCTRL_SMODE_PDOWN_gc s
    SLPCTRL_CTRLA_or SLPCTRL_SEN_bm s

def disableAllPeripherals : Machine → Machine :=
  call .disableAllPeripherals fun s =>
    let s := PORTA_DIRCLR PIN0_bm s
    let s := PORTA_DIRCLR PIN1_bm s
    let s := PORTA_DIRCLR PIN2_bm s
    let s := PORTA_DIRCLR PIN3_bm s
    let s := PORTA_DIRCLR PIN6_bm s
    let s := PORTA_DIRCLR PIN7_bm s
    let s := PORTA_PIN0CTRL PORT_ISC_INPUT_DISABLE_gc s
    let s := PORTA_PIN1CTRL PORT_ISC_INPUT_DISABLE_gc s
    let s := PORTA_PIN2CTRL PORT_ISC_INPUT_DISABLE_gc s
    let s := PORTA_PIN3CTRL PORT_ISC_INPUT_DISABLE_gc s
    let s := PORTA_PIN6CTRL PORT_ISC_INPUT_DISABLE_gc s
    PORTA_PIN7CTRL PORT_ISC_INPUT_DISABLE_gc s

/-- Macro `sleep_cpu()`: the CPU halts; the interrupt that ends the halt is served by
`isr` (one level deeper than the halted statement) and execution resumes after
the halt. -/
def sleep_cpu (isr : Machine → Machine) (s : Machine) : Machine :=
  call .sleep_cpu isr s

/-- The `for (uint8_t i = 0; i < val; i++) sleep_cpu();` loop from counter
value `i` on.  `i` is a byte, so `i++` wraps at 256; `fuel` bounds the number
of condition tests. -/
def sleepNCycles_for (isr : Machine → Machine) : Nat → Nat → Nat → Machine → Machine
  | 0, _, _, s => s
  | fuel + 1, i, val, s =>
    if i < val then sleepNCycles_for isr fuel ((i + 1) % 256) val (sleep_cpu isr s)
    else s

/-- Function `sleepNCycles(val)` with `val` converted to `uint8_t`.  A byte counter
below a byte bound is tested at most 256 times. -/
def sleepNCycles (isr : Machine → Machine) (val : Nat) : Machine → Machine :=
  call (.sleepNCycles (val % 256)) fun s =>
    let s := disableAllPeripherals s
    let s := sleepNCycles_for isr 256 0 (val % 256) s
    initSerialGPIO s

/-- The `for (i = 0; i < 8; i++)` loop of `flashByte` from counter value `i`
on, with the current (shifted) `val`. -/
def flashByte_for : Nat → Nat → Nat → Machine → Machine
  | 0, _, _, s => s
  | fuel + 1, i, val, s =>
    if i < 8 then
      let s := ledOn s
      let s := if val &&& 1 ≠ 0 then delay 700 s else delay 100 s
      let s := ledOff s
      let s := delay 1000 s
      flashByte_for fuel ((i + 1) % 256) ((val >>> 1) % 256) s
    else s

/-- Function `flashByte(val)` with `val` converted to `uint8_t`; the loop condition is
tested nine times. -/
def flashByte (val : Nat) : Machine → Machine :=
  call (.flashByte (val % 256)) (flashByte_for 9 0 (val % 256))

def setup : Machine → Machine :=
  call .setup fun s =>
    let s := initSerialGPIO s
    let s := init32kOscRTCPIT s
    initSleepMode s

/-- One pass through the body of the `while(1)` of `loop()`. -/
def loop_body (isr : Machine → Machine) (s : Machine) : Machine :=
  let s := ledOn s
  let s := delay 100 s
  let s := ledOff s
  let s := sleepNCycles isr 3 s
  let s := ledOn s
  let s := delay 100 s
  let s := ledOff s
  let s := sleepNCycles isr 3 s
  let s := ledOn s
  let s := delay 100 s
  let s := ledOff s
  sleepNCycles isr 8 s

/-- The first `k` passes of the `while(1)`. -/
def loop_while (isr : Machine → Machine) : Nat → Machine → Machine
  | 0, s => s
  | k + 1, s => loop_while isr k (loop_body isr s)

/-- Function `loop()` never returns; `loop isr k` is the machine inside the call after
`k` passes of its `while(1)`. -/
def loop (isr : Machine → Machine) (k : Nat) (s : Machine) : Machine :=
  loop_while isr k { emit .loop s with depth := s.depth + 1 }

/-- The machine at reset: a register file, an empty log. -/
def boot (r : Regs) : Machine := ⟨r, 0, []⟩

/-- The Arduino executive: `setup()` once, then `loop()`. -/
def run (k : Nat) (r : Regs) : Machine :=
  loop ISR_RTC_PIT k (setup (boot r))

/-! ## Views of the log -/

/-- The entries appended to the log between two machine states. -/
def since (s s' : Machine) : List Entry := s'.trace.drop s.trace.length

/-- The events of the statements standing at call depth `d`. -/
def eventsAt (d : Nat) (l : List Entry) : List Event :=
  (l.filter fun e => e.depth = d).map Entry.ev

/-- The values stored to register `r`, in order. -/
def writesTo (r : Reg) (l : List Entry) : List Nat :=
  l.filterMap fun e => match e.ev with
    | .write r' v => if r' = r then some v else none
    | _ => none

/-! ## Notions used to state and prove the properties -/

/-- What `f` appends to the log when started from the registers and depth of `s`. -/
def logOf (f : Machine → Machine) (s : Machine) : List Entry :=
  (f ⟨s.regs, s.depth, []⟩).trace

/-- A well-bracketed piece of code: it returns in the frame it started in, its
effect on the registers does not depend on the log, it only appends to the log,
and what it appends is logged at the starting depth or deeper. -/
structure Local (f : Machine → Machine) : Prop where
  eq : ∀ s : Machine, f s = ⟨(f ⟨s.regs, s.depth, []⟩).regs, s.depth, s.trace ++ logOf f s⟩
  le : ∀ s : Machine, ∀ x ∈ logOf f s, s.depth ≤ x.depth

/-- In its own frame `f` shows exactly the events `evs`, whatever the state. -/
def Shows (f : Machine → Machine) (evs : List Event) : Prop :=
  ∀ s : Machine, eventsAt s.depth (logOf f s) = evs

/-- The function leaves the global `rtcIntSemaphore` as it found it. -/
def KeepsSemaphore (f : Machine → Machine) : Prop :=
  ∀ s : Machine, (f s).regs.rtcIntSemaphore = s.regs.rtcIntSemaphore

/-- The events of one pass of the `while(1)` of `loop()`. -/
def passEvents : List Event :=
  [.ledOn, .delay 100, .ledOff, .sleepNCycles 3,
   .ledOn, .delay 100, .ledOff, .sleepNCycles 3,
   .ledOn, .delay 100, .ledOff, .sleepNCycles 8]

/-- For each `sleepNCycles(8)` in a list of events, the number of `ledOn` calls
since the previous `sleepNCycles(8)` (or since the start); `c` is the count so
far. -/
def ledOnsPerGroup (c : Nat) : List Event → List Nat
  | [] => []
  | .ledOn :: l => ledOnsPerGroup (c + 1) l
  | .sleepNCycles val :: l =>
    if val = 8 then c :: ledOnsPerGroup 0 l else ledOnsPerGroup c l
  | _ :: l => ledOnsPerGroup c l

/-- One pulse of `flashByte`: long for a one bit, short for a zero bit. -/
def pulse (bit : Bool) : List Event :=
  [.ledOn, .delay (if bit then 700 else 100), .ledOff, .delay 1000]

/-- PA1 is configured as an output. -/
def PA1_output (r : Regs) : Prop := r.PORTA_DIR.testBit 1 = true

/-- The output latch of PA1 is low. -/
def PA1_low (r : Regs) : Prop := r.PORTA_OUT.testBit 1 = false

/-- PA1 is dark: its latch is low and the pin is an input. -/
def PA1_dark (r : Regs) : Prop := r.PORTA_OUT.testBit 1 = false ∧ r.PORTA_DIR.testBit 1 = false

instance (r : Regs) : Decidable (PA1_output r) := inferInstanceAs (Decidable (_ = _))
instance (r : Regs) : Decidable (PA1_low r) := inferInstanceAs (Decidable (_ = _))
instance (r : Regs) : Decidable (PA1_dark r) := inferInstanceAs (Decidable (_ ∧ _))

/-- The Output Driver operation an entry stands for, if it is one. -/
def ledOpOf (x : Entry) : Option Event :=
  match x.ev with
  | .ledOn => some .ledOn
  | .ledOff => some .ledOff
  | .ledToggle => some .ledToggle
  | _ => none

/-- The last Output Driver operation in a log, `g` if there is none. -/
def lastLedOp (g : Option Event) : List Entry → Option Event
  | [] => g
  | x :: l => lastLedOp ((ledOpOf x).orElse fun _ => g) l

/-- What is required of one entry, `g` being the last Output Driver operation
before it: a halt comes after `ledOff` with PA1 dark, and `ledOn()` finds PA1
an output. -/
def entryOk (g : Option Event) (x : Entry) : Prop :=
  (x.ev = .sleep_cpu → g = some .ledOff ∧ PA1_dark x.regs) ∧
  (x.ev = .ledOn → PA1_output x.regs)

instance (g : Option Event) (x : Entry) : Decidable (entryOk g x) :=
  inferInstanceAs (Decidable (_ ∧ _))

/-- Every entry of a log is `entryOk`, `g` being the last Output Driver
operation before the log starts. -/
def logOk (g : Option Event) : List Entry → Prop
  | [] => True
  | x :: l => entryOk g x ∧ logOk ((ledOpOf x).orElse fun _ => g) l

/-- Whether a log is acceptable can be computed. -/
def logOk.decide : (g : Option Event) → (l : List Entry) → Decidable (logOk g l)
  | _, [] => isTrue trivial
  | g, x :: l =>
    have := logOk.decide ((ledOpOf x).orElse fun _ => g) l
    inferInstanceAs (Decidable (_ ∧ _))

instance (g : Option Event) (l : List Entry) : Decidable (logOk g l) := logOk.decide g l

/-- If `pre` holds of the last Output Driver operation and the registers when
`f` starts, what `f` logs is `logOk` and `post` holds when it returns. -/
def Safe (pre post : Option Event → Regs → Prop) (f : Machine → Machine) : Prop :=
  ∀ (s : Machine) (g : Option Event), pre g s.regs →
    logOk g (logOf f s) ∧ post (lastLedOp g (logOf f s)) (f s).regs

/-- Nothing is known. -/
def anyState : Option Event → Regs → Prop := fun _ _ => True

/-- The LED pin is an output. -/
def ledReady : Option Event → Regs → Prop := fun _ r => PA1_output r

/-- The LED was switched off by `ledOff()` and nothing has driven it since. -/
def ledIsOff : Option Event → Regs → Prop := fun g r => g = some .ledOff ∧ PA1_low r

/-- The LED was switched off by `ledOff()` and its pin is an input. -/
def ledAsleep : Option Event → Regs → Prop := fun g r => g = some .ledOff ∧ PA1_dark r

/-- Nothing that `f` logs is a store to `rtcIntSemaphore`. -/
def NoSemaphoreStore (f : Machine → Machine) : Prop :=
  ∀ s : Machine, ∀ x ∈ logOf f s, ∀ v : Nat, x.ev ≠ .write .rtcIntSemaphore v

/-- Whether an entry lies in the open handler frame: `fr` is the depth at which
the handler was entered, and the frame holds what is logged deeper. -/
def inFrame (fr : Option Nat) (x : Entry) : Bool :=
  match fr with
  | some d => decide (d < x.depth)
  | none => false

/-- The open handler frame after an entry: an entry in the frame leaves it
open, an `ISR_RTC_PIT` entry outside it opens a frame at its own depth, any
other entry outside it means the handler has returned. -/
def frameStep (fr : Option Nat) (x : Entry) : Option Nat :=
  if inFrame fr x then fr else if x.ev = .ISR_RTC_PIT then some x.depth else none

/-- The open handler frame at the end of a log. -/
def frameAfter : Option Nat → List Entry → Option Nat
  | fr, [] => fr
  | fr, x :: l => frameAfter (frameStep fr x) l

/-- The main flow of a log: its entries without the invocations of the handler
and what the handler logged while it ran. -/
def mainFlow : Option Nat → List Entry → List Entry
  | _, [] => []
  | fr, x :: l =>
    if inFrame fr x = true ∨ x.ev = .ISR_RTC_PIT then mainFlow (frameStep fr x) l
    else x :: mainFlow (frameStep fr x) l

/-- The main flow of `f` makes no store to `rtcIntSemaphore`: started outside
the handler (any frame still open was entered at the depth of `f` or deeper,
so the first statement of `f` closes it), the main flow of its log has no such
store, and it ends outside the handler in the same sense. -/
def MainFlowKeeps (f : Machine → Machine) : Prop :=
  ∀ (s : Machine) (fr : Option Nat), (∀ d, fr = some d → s.depth ≤ d) →
    writesTo .rtcIntSemaphore (mainFlow fr (logOf f s)) = [] ∧
    ∀ d, frameAfter fr (logOf f s) = some d → s.depth ≤ d

/-- A register file with every register zero. -/
def regs0 : Regs := ⟨0, 0, 0, 0, 0, 0, 0, 0, 0, 0, 0, 0, 0, 0, 0, 0, 0, 0, 0, 0⟩

/-- A register file with every port A pin an output driven high. -/
def regsFF : Regs := { regs0 with PORTA_DIR := 0xFF, PORTA_OUT := 0xFF }

/-- The entry of the first halt when the sketch starts from `regs0`: in the
body of the first `sleepNCycles(3)`, with `setup()` done and port A quiesced. -/
def firstHalt : Entry :=
  ⟨2, .sleep_cpu,
    { regs0 with
      PORTA_PIN0CTRL := 4, PORTA_PIN1CTRL := 4, PORTA_PIN2CTRL := 4, PORTA_PIN3CTRL := 4,
      PORTA_PIN6CTRL := 4, PORTA_PIN7CTRL := 4, CPU_CCP := 216, CLKCTRL_OSC32KCTRLA := 2,
      CLKCTRL_MCLKSTATUS := 32, RTC_CLKSEL := 1, RTC_PITCTRLA := 65, RTC_PITINTCTRL := 1,
      SLPCTRL_CTRLA := 5 }⟩

/-! ## Locality: a function only appends to the log -/

theorem Local.depth {f : Machine → Machine} (hf : Local f) (s : Machine) :
    (f s).depth = s.depth := by
  rw [hf.eq s]

theorem Local.regs {f : Machine → Machine} (hf : Local f) (s : Machine) :
    (f s).regs = (f ⟨s.regs, s.depth, []⟩).regs := by
  rw [hf.eq s]

theorem Local.trace {f : Machine → Machine} (hf : Local f) (s : Machine) :
    (f s).trace = s.trace ++ logOf f s := by
  rw [hf.eq s]

theorem Local.since {f : Machine → Machine} (hf : Local f) (s : Machine) :
    since s (f s) = logOf f s := by
  simp [Lighthouse.since, hf.trace s]

/-- The log of `f` depends on the registers and the depth only. -/
theorem logOf_congr (f : Machine → Machine) (s : Machine) (t : List Entry) :
    logOf f ⟨s.regs, s.depth, t⟩ = logOf f s := rfl

theorem logOf_comp {f g : Machine → Machine} (hf : Local f) (hg : Local g) (s : Machine) :
    logOf (fun s => g (f s)) s = logOf f s ++ logOf g (f s) := by
  show (g (f ⟨s.regs, s.depth, []⟩)).trace = _
  rw [hg.trace, hf.trace]
  have h1 : logOf g (f ⟨s.regs, s.depth, []⟩) = logOf g (f s) := by
    unfold logOf
    rw [hf.depth, hf.depth, hf.regs s]
  rw [h1]
  simp [logOf]

theorem local_id : Local fun s => s :=
  ⟨fun s => by simp [logOf], fun s x hx => by simp [logOf] at hx⟩

theorem local_emit (e : Event) : Local (emit e) :=
  ⟨fun s => by simp [emit, logOf], fun s x hx => by
    simp [emit, logOf] at hx; simp [hx]⟩

theorem local_store (r : Reg) (v : Nat) (upd : Regs → Regs) : Local (store r v upd) :=
  ⟨fun s => by simp [store, emit, logOf], fun s x hx => by
    simp [store, emit, logOf] at hx; simp [hx]⟩

theorem local_comp {f g : Machine → Machine} (hf : Local f) (hg : Local g) :
    Local fun s => g (f s) := by
  refine ⟨fun s => ?_, fun s x hx => ?_⟩
  · rw [logOf_comp hf hg]
    show g (f s) = ⟨(g (f ⟨s.regs, s.depth, []⟩)).regs, s.depth, _⟩
    have h1 : (g (f ⟨s.regs, s.depth, []⟩)).regs = (g (f s)).regs := by
      rw [hg.regs, hg.regs (f s), hf.depth, hf.depth, hf.regs s]
    rw [h1, ← List.append_assoc, ← hf.trace, ← hg.trace, ← hf.depth s, ← hg.depth (f s)]
  · rw [logOf_comp hf hg, List.mem_append] at hx
    rcases hx with hx | hx
    · exact hf.le s x hx
    · have := hg.le (f s) x hx
      rwa [hf.depth] at this

theorem logOf_call (e : Event) (body : Machine → Machine) (hb : Local body) (s : Machine) :
    logOf (call e body) s = ⟨s.depth, e, s.regs⟩ :: logOf body ⟨s.regs, s.depth + 1, []⟩ := by
  simp only [logOf, call, emit]
  rw [hb.trace]
  simp [logOf]

theorem regs_call (e : Event) (body : Machine → Machine) (hb : Local body) (s : Machine) :
    (call e body s).regs = (body ⟨s.regs, s.depth + 1, []⟩).regs := by
  simp only [call, emit]
  rw [hb.regs]

theorem local_call (e : Event) {body : Machine → Machine} (hb : Local body) :
    Local (call e body) := by
  refine ⟨fun s => ?_, fun s x hx => ?_⟩
  · rw [logOf_call e body hb, regs_call e body hb]
    simp only [call, emit]
    rw [hb.eq]
    simp [logOf]
  · rw [logOf_call e body hb, List.mem_cons] at hx
    rcases hx with hx | hx
    · simp [hx]
    · have := hb.le _ x hx
      simp at this
      omega

theorem local_of_eq {f g : Machine → Machine} (hf : Local f) (h : ∀ s, g s = f s) : Local g := by
  have : g = f := funext h
  rw [this]; exact hf

theorem local_iterate {f : Machine → Machine} (hf : Local f) (n : Nat) : Local f^[n] := by
  induction n with
  | zero => exact local_id
  | succ n ih => exact local_of_eq (local_comp hf ih) fun s => by simp [Function.iterate_succ]

theorem local_PORTA_DIRSET (v : Nat) : Local (PORTA_DIRSET v) := local_store _ _ _
theorem local_PORTA_DIRCLR (v : Nat) : Local (PORTA_DIRCLR v) := local_store _ _ _
theorem local_PORTA_OUTSET (v : Nat) : Local (PORTA_OUTSET v) := local_store _ _ _
theorem local_PORTA_OUTCLR (v : Nat) : Local (PORTA_OUTCLR v) := local_store _ _ _
theorem local_PORTA_OUTTGL (v : Nat) : Local (PORTA_OUTTGL v) := local_store _ _ _
theorem local_PORTA_PIN0CTRL (v : Nat) : Local (PORTA_PIN0CTRL v) := local_store _ _ _
theorem local_PORTA_PIN1CTRL (v : Nat) : Local (PORTA_PIN1CTRL v) := local_store _ _ _
theorem local_PORTA_PIN2CTRL (v : Nat) : Local (PORTA_PIN2CTRL v) := local_store _ _ _
theorem local_PORTA_PIN3CTRL (v : Nat) : Local (PORTA_PIN3CTRL v) := local_store _ _ _
theorem local_PORTA_PIN6CTRL (v : Nat) : Local (PORTA_PIN6CTRL v) := local_store _ _ _
theorem local_PORTA_PIN7CTRL (v : Nat) : Local (PORTA_PIN7CTRL v) := local_store _ _ _
theorem local_RTC_CLKSEL (v : Nat) : Local (RTC_CLKSEL v) := local_store _ _ _
theorem local_RTC_PITCTRLA (v : Nat) : Local (RTC_PITCTRLA v) := local_store _ _ _
theorem local_RTC_PITINTCTRL (v : Nat) : Local (RTC_PITINTCTRL v) := local_store _ _ _
theorem local_RTC_PITINTFLAGS (v : Nat) : Local (RTC_PITINTFLAGS v) := local_store _ _ _
theorem local_SLPCTRL_CTRLA (v : Nat) : Local (SLPCTRL_CTRLA v) := local_store _ _ _
theorem local_set_rtcIntSemaphore (v : Nat) : Local (set_rtcIntSemaphore v) := local_store _ _ _

theorem local_SLPCTRL_CTRLA_or (v : Nat) : Local (SLPCTRL_CTRLA_or v) :=
  ⟨fun s => by simp [SLPCTRL_CTRLA_or, SLPCTRL_CTRLA, store, emit, logOf], fun s x hx => by
    simp [SLPCTRL_CTRLA_or, SLPCTRL_CTRLA, store, emit, logOf] at hx; simp [hx]⟩

theorem local_PROTECTED_WRITE_OSC32KCTRLA (v : Nat) : Local (PROTECTED_WRITE_OSC32KCTRLA v) :=
  local_of_eq (local_comp
    (local_store .CPU_CCP CCP_IOREG_gc fun r => { r with CPU_CCP := CCP_IOREG_gc })
    (local_store .CLKCTRL_OSC32KCTRLA v fun r => { r with CLKCTRL_OSC32KCTRLA := v }))
    fun _ => rfl

theorem local_wait_OSC32KS : Local wait_OSC32KS :=
  ⟨fun s => by simp [wait_OSC32KS, logOf], fun s x hx => by simp [wait_OSC32KS, logOf] at hx⟩

theorem local_wait_PITSTATUS : Local wait_PITSTATUS :=
  ⟨fun s => by simp [wait_PITSTATUS, logOf], fun s x hx => by simp [wait_PITSTATUS, logOf] at hx⟩

theorem local_delay (ms : Nat) : Local (delay ms) := local_emit _

theorem local_ledOn : Local ledOn := local_call _ (local_PORTA_OUTSET _)
theorem local_ledOff : Local ledOff := local_call _ (local_PORTA_OUTCLR _)
theorem local_ledToggle : Local ledToggle := local_call _ (local_PORTA_OUTTGL _)
theorem local_diagnosticPinHigh : Local diagnosticPinHigh := local_call _ (local_PORTA_OUTSET _)
theorem local_diagnosticPinLow : Local diagnosticPinLow := local_call _ (local_PORTA_OUTCLR _)
theorem local_diagnosticPinToggle : Local diagnosticPinToggle :=
  local_call _ (local_PORTA_OUTTGL _)

theorem local_ISR_RTC_PIT : Local ISR_RTC_PIT :=
  local_call _ (local_comp (local_RTC_PITINTFLAGS _) (local_set_rtcIntSemaphore _))

theorem initSerialGPIO_local : Local initSerialGPIO :=
  local_call _ (local_comp (local_comp (local_comp (local_PORTA_DIRSET _) (local_PORTA_OUTCLR _))
    (local_PORTA_DIRSET _)) (local_PORTA_OUTCLR _))

theorem local_init32kOscRTCPIT : Local init32kOscRTCPIT :=
  local_call _ (local_comp (local_comp (local_comp (local_comp (local_comp
    (local_PROTECTED_WRITE_OSC32KCTRLA _) (local_RTC_CLKSEL _)) (local_RTC_PITCTRLA _))
    local_wait_OSC32KS) local_wait_PITSTATUS) (local_RTC_PITINTCTRL _))

theorem local_initSleepMode : Local initSleepMode :=
  local_call _ (local_comp (local_SLPCTRL_CTRLA _) (local_SLPCTRL_CTRLA_or _))

theorem local_disableAllPeripherals : Local disableAllPeripherals :=
  local_call _ (local_comp (local_comp (local_comp (local_comp (local_comp (local_comp
    (local_comp (local_comp (local_comp (local_comp (local_comp
    (local_PORTA_DIRCLR _) (local_PORTA_DIRCLR _)) (local_PORTA_DIRCLR _))
    (local_PORTA_DIRCLR _)) (local_PORTA_DIRCLR _)) (local_PORTA_DIRCLR _))
    (local_PORTA_PIN0CTRL _)) (local_PORTA_PIN1CTRL _)) (local_PORTA_PIN2CTRL _))
    (local_PORTA_PIN3CTRL _)) (local_PORTA_PIN6CTRL _)) (local_PORTA_PIN7CTRL _))

theorem local_setup : Local setup :=
  local_call _ (local_comp (local_comp initSerialGPIO_local local_init32kOscRTCPIT)
    local_initSleepMode)

theorem local_sleep_cpu {isr : Machine → Machine} (h : Local isr) : Local (sleep_cpu isr) :=
  local_call _ h

theorem local_sleepNCycles_for {isr : Machine → Machine} (h : Local isr) (fuel i val : Nat) :
    Local (sleepNCycles_for isr fuel i val) := by
  induction fuel generalizing i with
  | zero => exact local_id
  | succ fuel ih =>
    by_cases hi : i < val
    · exact local_of_eq (local_comp (local_sleep_cpu h) (ih ((i + 1) % 256))) fun s => by
        simp [sleepNCycles_for, hi]
    · exact local_of_eq local_id fun s => by simp [sleepNCycles_for, hi]

theorem local_sleepNCycles {isr : Machine → Machine} (h : Local isr) (val : Nat) :
    Local (sleepNCycles isr val) :=
  local_call _ (local_comp (local_comp local_disableAllPeripherals
    (local_sleepNCycles_for h _ _ _)) initSerialGPIO_local)

theorem local_flashByte_for (fuel i val : Nat) : Local (flashByte_for fuel i val) := by
  induction fuel generalizing i val with
  | zero => exact local_id
  | succ fuel ih =>
    by_cases hi : i < 8
    · by_cases hb : val &&& 1 ≠ 0
      · exact local_of_eq (local_comp (local_comp (local_comp (local_comp local_ledOn
          (local_delay 700)) local_ledOff) (local_delay 1000))
          (ih ((i + 1) % 256) ((val >>> 1) % 256))) fun s => by
            simp only [flashByte_for, if_pos hi, if_pos hb]
      · exact local_of_eq (local_comp (local_comp (local_comp (local_comp local_ledOn
          (local_delay 100)) local_ledOff) (local_delay 1000))
          (ih ((i + 1) % 256) ((val >>> 1) % 256))) fun s => by
            simp only [flashByte_for, if_pos hi, if_neg hb]
    · exact local_of_eq local_id fun s => by simp [flashByte_for, hi]

theorem local_flashByte (val : Nat) : Local (flashByte val) :=
  local_call _ (local_flashByte_for _ _ _)

theorem local_loop_body {isr : Machine → Machine} (h : Local isr) : Local (loop_body isr) :=
  local_of_eq (local_comp (local_comp (local_comp (local_comp (local_comp (local_comp (local_comp
    (local_comp (local_comp (local_comp (local_comp
    local_ledOn (local_delay _)) local_ledOff) (local_sleepNCycles h _))
    local_ledOn) (local_delay _)) local_ledOff) (local_sleepNCycles h _))
    local_ledOn) (local_delay _)) local_ledOff) (local_sleepNCycles h _)) fun _ => rfl

theorem local_loop_while {isr : Machine → Machine} (h : Local isr) (k : Nat) :
    Local (loop_while isr k) := by
  induction k with
  | zero => exact local_id
  | succ k ih => exact local_of_eq (local_comp (local_loop_body h) ih) fun _ => rfl

/-! ## Events by call depth -/

theorem eventsAt_append (d : Nat) (l₁ l₂ : List Entry) :
    eventsAt d (l₁ ++ l₂) = eventsAt d l₁ ++ eventsAt d l₂ := by
  simp [eventsAt]

theorem eventsAt_cons_self (d : Nat) (e : Event) (r : Regs) (l : List Entry) :
    eventsAt d (⟨d, e, r⟩ :: l) = e :: eventsAt d l := by
  simp [eventsAt]

theorem eventsAt_cons_ne {d d' : Nat} (h : d' ≠ d) (e : Event) (r : Regs) (l : List Entry) :
    eventsAt d (⟨d', e, r⟩ :: l) = eventsAt d l := by
  simp [eventsAt, h]

/-- Nothing that a local function logs stands above its own frame. -/
theorem eventsAt_above {f : Machine → Machine} (hf : Local f) (s : Machine) {d : Nat}
    (hd : d < s.depth) : eventsAt d (logOf f s) = [] := by
  simp only [eventsAt, List.map_eq_nil_iff, List.filter_eq_nil_iff]
  intro x hx
  have := hf.le s x hx
  simp; omega

/-- In the frame of the caller a call is one event. -/
theorem eventsAt_call_self (e : Event) {body : Machine → Machine} (hb : Local body)
    (s : Machine) : eventsAt s.depth (logOf (call e body) s) = [e] := by
  rw [logOf_call e body hb, eventsAt_cons_self]
  have := eventsAt_above hb ⟨s.regs, s.depth + 1, []⟩ (Nat.lt_succ_self s.depth)
  simp [this]

/-- One level below the caller a call shows the statements of its body. -/
theorem eventsAt_call_body (e : Event) {body : Machine → Machine} (hb : Local body)
    (s : Machine) : eventsAt (s.depth + 1) (logOf (call e body) s) =
      eventsAt (s.depth + 1) (logOf body ⟨s.regs, s.depth + 1, []⟩) := by
  rw [logOf_call e body hb, eventsAt_cons_ne (Nat.ne_of_lt (Nat.lt_succ_self _))]

theorem shows_id : Shows (fun s => s) [] := fun s => by
  simp [logOf, eventsAt]

theorem shows_emit (e : Event) : Shows (emit e) [e] := fun s => by
  simp [logOf, eventsAt, emit]

theorem shows_call (e : Event) {body : Machine → Machine} (hb : Local body) :
    Shows (call e body) [e] :=
  fun s => eventsAt_call_self e hb s

theorem shows_comp {f g : Machine → Machine} {a b : List Event} (hf : Local f) (hg : Local g)
    (ha : Shows f a) (hb : Shows g b) : Shows (fun s => g (f s)) (a ++ b) := fun s => by
  rw [logOf_comp hf hg, eventsAt_append, ha s]
  have := hb (f s)
  rw [hf.depth] at this
  rw [this]

theorem shows_of_eq {f g : Machine → Machine} {a : List Event} (ha : Shows f a)
    (h : ∀ s, g s = f s) : Shows g a := by
  have : g = f := funext h
  rw [this]; exact ha

/-- A statement repeated `n` times shows its events `n` times. -/
theorem shows_iterate {f : Machine → Machine} {a : List Event} (hf : Local f) (ha : Shows f a)
    (n : Nat) : Shows f^[n] (List.replicate n a).flatten := by
  induction n with
  | zero => exact shows_id
  | succ n ih =>
    exact shows_of_eq (shows_comp hf (local_iterate hf n) ha ih) fun s => by
      simp [Function.iterate_succ]

/-! ## The sleep loop -/

/-- With a byte bound the counter never wraps: the loop is `val - i` halts,
whatever fuel is left beyond that. -/
theorem sleepNCycles_for_eq (isr : Machine → Machine) (fuel i val : Nat) (s : Machine)
    (hval : val ≤ 255) (hi : i ≤ val) (hfuel : val - i < fuel) :
    sleepNCycles_for isr fuel i val s = (sleep_cpu isr)^[val - i] s := by
  induction fuel generalizing i s with
  | zero => omega
  | succ fuel ih =>
    by_cases h : i < val
    · have hmod : (i + 1) % 256 = i + 1 := Nat.mod_eq_of_lt (by omega)
      have hsub : val - i = (val - (i + 1)) + 1 := by omega
      rw [sleepNCycles_for, if_pos h, hmod, ih (i + 1) _ (by omega) (by omega), hsub,
        Function.iterate_succ_apply]
    · have hsub : val - i = 0 := by omega
      rw [sleepNCycles_for, if_neg h, hsub]
      rfl

/-- For a byte argument, `sleepNCycles` is: quiesce, `val` halts, restore. -/
theorem sleepNCycles_eq (isr : Machine → Machine) (val : Nat) (hval : val ≤ 255) :
    sleepNCycles isr val = call (.sleepNCycles val) fun s =>
      initSerialGPIO ((sleep_cpu isr)^[val] (disableAllPeripherals s)) := by
  have hmod : val % 256 = val := Nat.mod_eq_of_lt (by omega)
  have key : ∀ s, sleepNCycles_for isr 256 0 val s = (sleep_cpu isr)^[val] s := fun s =>
    sleepNCycles_for_eq isr 256 0 val s hval (Nat.zero_le _) (by omega)
  simp only [sleepNCycles, hmod, key]

theorem local_sleepNCycles_body {isr : Machine → Machine} (h : Local isr) (val : Nat) :
    Local fun s => initSerialGPIO ((sleep_cpu isr)^[val] (disableAllPeripherals s)) :=
  local_comp (local_comp local_disableAllPeripherals (local_iterate (local_sleep_cpu h) val))
    initSerialGPIO_local

/-- The log of `sleepNCycles(val)`: the call, then the logs of its three parts. -/
theorem logOf_sleepNCycles {isr : Machine → Machine} (h : Local isr) (val : Nat)
    (hval : val ≤ 255) (s : Machine) :
    logOf (sleepNCycles isr val) s = ⟨s.depth, .sleepNCycles val, s.regs⟩ ::
      (logOf disableAllPeripherals ⟨s.regs, s.depth + 1, []⟩ ++
        (logOf (sleep_cpu isr)^[val] (disableAllPeripherals ⟨s.regs, s.depth + 1, []⟩) ++
          logOf initSerialGPIO
            ((sleep_cpu isr)^[val] (disableAllPeripherals ⟨s.regs, s.depth + 1, []⟩)))) := by
  rw [sleepNCycles_eq isr val hval, logOf_call _ _ (local_sleepNCycles_body h val),
    logOf_comp (local_comp local_disableAllPeripherals (local_iterate (local_sleep_cpu h) val))
      initSerialGPIO_local,
    logOf_comp local_disableAllPeripherals (local_iterate (local_sleep_cpu h) val)]
  simp

theorem eventsAt_disableAllPeripherals (s : Machine) :
    eventsAt s.depth (logOf disableAllPeripherals s) = [.disableAllPeripherals] := by
  simp [disableAllPeripherals, call, emit, store, eventsAt, logOf, PORTA_DIRCLR, PORTA_PIN0CTRL,
    PORTA_PIN1CTRL, PORTA_PIN2CTRL, PORTA_PIN3CTRL, PORTA_PIN6CTRL, PORTA_PIN7CTRL]

theorem initSerialGPIO_eventsAt (s : Machine) :
    eventsAt s.depth (logOf initSerialGPIO s) = [Event.initSerialGPIO] := by
  simp [ initSerialGPIO, call, emit, store, eventsAt, logOf, PORTA_DIRSET, PORTA_OUTCLR]

/-- The statements of the body of `sleepNCycles(val)`, for any local handler. -/
theorem eventsAt_sleepNCycles_body {isr : Machine → Machine} (h : Local isr) (val : Nat)
    (hval : val ≤ 255) (s : Machine) :
    eventsAt (s.depth + 1) (logOf (sleepNCycles isr val) s) =
      .disableAllPeripherals :: (List.replicate val .sleep_cpu ++ [Event.initSerialGPIO]) := by
  rw [logOf_sleepNCycles h val hval, eventsAt_cons_ne (Nat.ne_of_lt (Nat.lt_succ_self _)),
    eventsAt_append, eventsAt_append]
  have h1 := eventsAt_disableAllPeripherals ⟨s.regs, s.depth + 1, []⟩
  have h2 := shows_iterate (local_sleep_cpu h) (shows_call .sleep_cpu h) val
    (disableAllPeripherals ⟨s.regs, s.depth + 1, []⟩)
  rw [List.flatten_replicate_singleton] at h2
  have h3 := initSerialGPIO_eventsAt
    ((sleep_cpu isr)^[val] (disableAllPeripherals ⟨s.regs, s.depth + 1, []⟩))
  rw [(local_iterate (local_sleep_cpu h) val).depth] at h3
  rw [local_disableAllPeripherals.depth] at h2 h3
  simp only [] at h1 h2 h3
  rw [h1, h2, h3]
  rfl

/-! ## The flash pattern -/

/-- Sequencing two local statements: the events of the first, then the events
of the second. -/
theorem seq_shows {f g : Machine → Machine} {a b : List Event}
    (hf : Local f ∧ Shows f a) (hg : Local g ∧ Shows g b) :
    Local (fun s => g (f s)) ∧ Shows (fun s => g (f s)) (a ++ b) :=
  ⟨local_comp hf.1 hg.1, shows_comp hf.1 hg.1 hf.2 hg.2⟩

theorem shows_ledOn : Local ledOn ∧ Shows ledOn [.ledOn] :=
  ⟨local_ledOn, shows_call _ (local_PORTA_OUTSET _)⟩

theorem shows_ledOff : Local ledOff ∧ Shows ledOff [.ledOff] :=
  ⟨local_ledOff, shows_call _ (local_PORTA_OUTCLR _)⟩

theorem shows_delay (ms : Nat) : Local (delay ms) ∧ Shows (delay ms) [.delay ms] :=
  ⟨local_delay ms, shows_emit _⟩

theorem shows_sleepNCycles {isr : Machine → Machine} (h : Local isr) (val : Nat) :
    Local (sleepNCycles isr val) ∧ Shows (sleepNCycles isr val) [.sleepNCycles (val % 256)] :=
  ⟨local_sleepNCycles h val, shows_call _ (local_comp (local_comp local_disableAllPeripherals
    (local_sleepNCycles_for h _ _ _)) initSerialGPIO_local)⟩

/-- One pass of the `while(1)` shows the twelve calls of its body. -/
theorem shows_loop_body {isr : Machine → Machine} (h : Local isr) :
    Shows (loop_body isr) passEvents :=
  shows_of_eq
    (seq_shows (seq_shows (seq_shows (seq_shows (seq_shows (seq_shows (seq_shows (seq_shows
      (seq_shows (seq_shows (seq_shows
      shows_ledOn (shows_delay 100)) shows_ledOff) (shows_sleepNCycles h 3))
      shows_ledOn) (shows_delay 100)) shows_ledOff) (shows_sleepNCycles h 3))
      shows_ledOn) (shows_delay 100)) shows_ledOff) (shows_sleepNCycles h 8)).2
    fun _ => rfl

/-- The first `k` passes show the twelve calls `k` times over. -/
theorem shows_loop_while {isr : Machine → Machine} (h : Local isr) (k : Nat) :
    Shows (loop_while isr k) (List.replicate k passEvents).flatten := by
  induction k with
  | zero => exact shows_id
  | succ k ih =>
    exact shows_of_eq
      (shows_comp (local_loop_body h) (local_loop_while h k) (shows_loop_body h) ih)
      fun _ => rfl

/-- What `loop()` has appended to the log after `k` passes. -/
theorem since_loop {isr : Machine → Machine} (h : Local isr) (k : Nat) (s : Machine) :
    since s (loop isr k s) =
      ⟨s.depth, .loop, s.regs⟩ :: logOf (loop_while isr k) ⟨s.regs, s.depth + 1, []⟩ := by
  simp only [loop, emit, Lighthouse.since]
  rw [(local_loop_while h k).trace]
  simp [logOf]

theorem ledOnsPerGroup_pass (l : List Event) :
    ledOnsPerGroup 0 (passEvents ++ l) = 3 :: ledOnsPerGroup 0 l := by
  simp [passEvents, ledOnsPerGroup]

theorem ledOnsPerGroup_passes (k : Nat) :
    ledOnsPerGroup 0 (List.replicate k passEvents).flatten = List.replicate k 3 := by
  induction k with
  | zero => simp [ledOnsPerGroup]
  | succ k ih =>
    rw [List.replicate_succ, List.flatten_cons, ledOnsPerGroup_pass, ih, List.replicate_succ]

/-! ## Effects on the registers -/

theorem disableAllPeripherals_regs (s : Machine) :
    (disableAllPeripherals s).regs = { s.regs with
      PORTA_DIR := s.regs.PORTA_DIR &&& 0x30
      PORTA_PIN0CTRL := PORT_ISC_INPUT_DISABLE_gc
      PORTA_PIN1CTRL := PORT_ISC_INPUT_DISABLE_gc
      PORTA_PIN2CTRL := PORT_ISC_INPUT_DISABLE_gc
      PORTA_PIN3CTRL := PORT_ISC_INPUT_DISABLE_gc
      PORTA_PIN6CTRL := PORT_ISC_INPUT_DISABLE_gc
      PORTA_PIN7CTRL := PORT_ISC_INPUT_DISABLE_gc } := by
  simp only [disableAllPeripherals, call, emit, store, PORTA_DIRCLR, PORTA_PIN0CTRL,
    PORTA_PIN1CTRL, PORTA_PIN2CTRL, PORTA_PIN3CTRL, PORTA_PIN6CTRL, PORTA_PIN7CTRL,
    PIN0_bm, PIN1_bm, PIN2_bm, PIN3_bm, PIN6_bm, PIN7_bm, Nat.and_assoc]
  rfl

theorem initSerialGPIO_regs (s : Machine) :
    ( initSerialGPIO s).regs = { s.regs with
      PORTA_DIR := s.regs.PORTA_DIR ||| 0x06
      PORTA_OUT := s.regs.PORTA_OUT &&& 0xF9 } := by
  simp only [ initSerialGPIO, call, emit, store, PORTA_DIRSET, PORTA_OUTCLR, PIN1_bm, PIN2_bm,
    Nat.and_assoc, Nat.or_assoc]
  rfl

theorem initSleepMode_regs (s : Machine) :
    (initSleepMode s).regs = { s.regs with
      SLPCTRL_CTRLA := SLPCTRL_SMODE_PDOWN_gc ||| SLPCTRL_SEN_bm } := by
  simp only [initSleepMode, call, emit, store, SLPCTRL_CTRLA, SLPCTRL_CTRLA_or]

theorem sleepNCycles_regs (isr : Machine → Machine) (val : Nat) (s : Machine) :
    ∃ s' : Machine, (sleepNCycles isr val s).regs = ( initSerialGPIO s').regs :=
  ⟨_, rfl⟩

/-! ## Who writes `rtcIntSemaphore` -/

theorem keeps_comp {f g : Machine → Machine} (hf : KeepsSemaphore f) (hg : KeepsSemaphore g) :
    KeepsSemaphore fun s => g (f s) := fun s => by
  rw [hg (f s), hf s]

theorem keeps_call (e : Event) {body : Machine → Machine} (hb : KeepsSemaphore body) :
    KeepsSemaphore (call e body) := fun s => by
  show (body _).regs.rtcIntSemaphore = _
  rw [hb]
  rfl

theorem keeps_ledOn : KeepsSemaphore ledOn := fun _ => rfl
theorem keeps_ledOff : KeepsSemaphore ledOff := fun _ => rfl
theorem keeps_ledToggle : KeepsSemaphore ledToggle := fun _ => rfl
theorem keeps_diagnosticPinHigh : KeepsSemaphore diagnosticPinHigh := fun _ => rfl
theorem keeps_diagnosticPinLow : KeepsSemaphore diagnosticPinLow := fun _ => rfl
theorem keeps_diagnosticPinToggle : KeepsSemaphore diagnosticPinToggle := fun _ => rfl
theorem keeps_delay (ms : Nat) : KeepsSemaphore (delay ms) := fun _ => rfl
theorem initSerialGPIO_keeps : KeepsSemaphore initSerialGPIO := fun _ => rfl
theorem keeps_init32kOscRTCPIT : KeepsSemaphore init32kOscRTCPIT := fun s => by
  simp [init32kOscRTCPIT, call, emit, store, PROTECTED_WRITE_OSC32KCTRLA, RTC_CLKSEL,
    RTC_PITCTRLA, RTC_PITINTCTRL, wait_OSC32KS, wait_PITSTATUS]
theorem keeps_initSleepMode : KeepsSemaphore initSleepMode := fun _ => rfl
theorem keeps_disableAllPeripherals : KeepsSemaphore disableAllPeripherals := fun _ => rfl

theorem keeps_setup : KeepsSemaphore setup :=
  keeps_call _ (keeps_comp (keeps_comp initSerialGPIO_keeps keeps_init32kOscRTCPIT)
    keeps_initSleepMode)

theorem sets_ISR_RTC_PIT (s : Machine) : (ISR_RTC_PIT s).regs.rtcIntSemaphore = 1 := rfl

theorem keeps_sleepNCycles_for {isr : Machine → Machine} (h : KeepsSemaphore isr)
    (fuel i val : Nat) : KeepsSemaphore (sleepNCycles_for isr fuel i val) := by
  induction fuel generalizing i with
  | zero => exact fun _ => rfl
  | succ fuel ih =>
    intro s
    by_cases hi : i < val
    · rw [sleepNCycles_for, if_pos hi, ih ((i + 1) % 256) (sleep_cpu isr s)]
      exact keeps_call .sleep_cpu h s
    · rw [sleepNCycles_for, if_neg hi]

theorem keeps_sleepNCycles {isr : Machine → Machine} (h : KeepsSemaphore isr) (val : Nat) :
    KeepsSemaphore (sleepNCycles isr val) :=
  keeps_call _ (keeps_comp (keeps_comp keeps_disableAllPeripherals
    (keeps_sleepNCycles_for h _ _ _)) initSerialGPIO_keeps)

theorem keeps_flashByte_for (fuel i val : Nat) : KeepsSemaphore (flashByte_for fuel i val) := by
  induction fuel generalizing i val with
  | zero => exact fun _ => rfl
  | succ fuel ih =>
    intro s
    by_cases hi : i < 8
    · rw [flashByte_for, if_pos hi]
      simp only []
      rw [ih]
      split <;> rfl
    · rw [flashByte_for, if_neg hi]

theorem keeps_loop_body {isr : Machine → Machine} (h : KeepsSemaphore isr) :
    KeepsSemaphore (loop_body isr) := fun s => by
  have h3 := keeps_sleepNCycles h 3
  have h8 := keeps_sleepNCycles h 8
  simp only [loop_body]
  rw [h8, keeps_ledOff _, keeps_delay, keeps_ledOn _, h3, keeps_ledOff _, keeps_delay,
    keeps_ledOn _, h3, keeps_ledOff _, keeps_delay, keeps_ledOn _]

theorem nostore_of_eq {f g : Machine → Machine} (hf : Local f ∧ NoSemaphoreStore f)
    (h : ∀ s, g s = f s) : Local g ∧ NoSemaphoreStore g := by
  have : g = f := funext h
  rw [this]; exact hf

theorem nostore_id : Local (fun s => s) ∧ NoSemaphoreStore fun s => s :=
  ⟨local_id, fun s x hx => by simp [logOf] at hx⟩

theorem seq_nostore {f g : Machine → Machine} (hf : Local f ∧ NoSemaphoreStore f)
    (hg : Local g ∧ NoSemaphoreStore g) :
    Local (fun s => g (f s)) ∧ NoSemaphoreStore fun s => g (f s) := by
  refine ⟨local_comp hf.1 hg.1, fun s x hx => ?_⟩
  rw [logOf_comp hf.1 hg.1, List.mem_append] at hx
  rcases hx with hx | hx
  · exact hf.2 s x hx
  · exact hg.2 (f s) x hx

theorem nostore_call (e : Event) {body : Machine → Machine}
    (hb : Local body ∧ NoSemaphoreStore body) (he : ∀ v, e ≠ .write .rtcIntSemaphore v) :
    Local (call e body) ∧ NoSemaphoreStore (call e body) := by
  refine ⟨local_call e hb.1, fun s x hx => ?_⟩
  rw [logOf_call e body hb.1, List.mem_cons] at hx
  rcases hx with hx | hx
  · subst hx; exact he
  · exact hb.2 _ x hx

theorem nostore_store (r : Reg) (v : Nat) (upd : Regs → Regs) (hr : r ≠ .rtcIntSemaphore) :
    Local (store r v upd) ∧ NoSemaphoreStore (store r v upd) :=
  ⟨local_store r v upd, fun s x hx => by
    simp only [logOf, store, emit, List.nil_append, List.mem_singleton] at hx
    subst hx
    intro w hw
    simp only [Event.write.injEq] at hw
    exact hr hw.1⟩

theorem nostore_delay (ms : Nat) : Local (delay ms) ∧ NoSemaphoreStore (delay ms) :=
  ⟨local_delay ms, fun s x hx => by
    simp only [logOf, delay, emit, List.nil_append, List.mem_singleton] at hx
    subst hx
    simp⟩

theorem nostore_ledOn : Local ledOn ∧ NoSemaphoreStore ledOn :=
  nostore_call _ (nostore_store _ _ _ (by simp)) (by simp)

theorem nostore_ledOff : Local ledOff ∧ NoSemaphoreStore ledOff :=
  nostore_call _ (nostore_store _ _ _ (by simp)) (by simp)

theorem nostore_ledToggle : Local ledToggle ∧ NoSemaphoreStore ledToggle :=
  nostore_call _ (nostore_store _ _ _ (by simp)) (by simp)

theorem nostore_diagnosticPinHigh : Local diagnosticPinHigh ∧ NoSemaphoreStore diagnosticPinHigh :=
  nostore_call _ (nostore_store _ _ _ (by simp)) (by simp)

theorem nostore_diagnosticPinLow : Local diagnosticPinLow ∧ NoSemaphoreStore diagnosticPinLow :=
  nostore_call _ (nostore_store _ _ _ (by simp)) (by simp)

theorem nostore_diagnosticPinToggle :
    Local diagnosticPinToggle ∧ NoSemaphoreStore diagnosticPinToggle :=
  nostore_call _ (nostore_store _ _ _ (by simp)) (by simp)

theorem initSerialGPIO_nostore : Local initSerialGPIO ∧ NoSemaphoreStore initSerialGPIO :=
  nostore_call _ (seq_nostore (seq_nostore (seq_nostore
    (nostore_store _ _ _ (by simp)) (nostore_store _ _ _ (by simp)))
    (nostore_store _ _ _ (by simp))) (nostore_store _ _ _ (by simp))) (by simp)

theorem nostore_wait_OSC32KS : Local wait_OSC32KS ∧ NoSemaphoreStore wait_OSC32KS :=
  ⟨local_wait_OSC32KS, fun s x hx => by simp [logOf, wait_OSC32KS] at hx⟩

theorem nostore_wait_PITSTATUS : Local wait_PITSTATUS ∧ NoSemaphoreStore wait_PITSTATUS :=
  ⟨local_wait_PITSTATUS, fun s x hx => by simp [logOf, wait_PITSTATUS] at hx⟩

theorem nostore_PROTECTED_WRITE_OSC32KCTRLA (v : Nat) :
    Local (PROTECTED_WRITE_OSC32KCTRLA v) ∧ NoSemaphoreStore (PROTECTED_WRITE_OSC32KCTRLA v) :=
  nostore_of_eq (seq_nostore
    (nostore_store .CPU_CCP CCP_IOREG_gc (fun r => { r with CPU_CCP := CCP_IOREG_gc }) (by simp))
    (nostore_store .CLKCTRL_OSC32KCTRLA v (fun r => { r with CLKCTRL_OSC32KCTRLA := v })
      (by simp)))
    fun _ => rfl

theorem nostore_SLPCTRL_CTRLA_or (v : Nat) :
    Local (SLPCTRL_CTRLA_or v) ∧ NoSemaphoreStore (SLPCTRL_CTRLA_or v) :=
  ⟨local_SLPCTRL_CTRLA_or v, fun s x hx => by
    simp only [logOf, SLPCTRL_CTRLA_or, SLPCTRL_CTRLA, store, emit, List.nil_append,
      List.mem_singleton] at hx
    rw [hx]
    simp⟩

theorem nostore_init32kOscRTCPIT : Local init32kOscRTCPIT ∧ NoSemaphoreStore init32kOscRTCPIT :=
  nostore_call _ (seq_nostore (seq_nostore (seq_nostore (seq_nostore (seq_nostore
    (nostore_PROTECTED_WRITE_OSC32KCTRLA _) (nostore_store _ _ _ (by simp)))
    (nostore_store _ _ _ (by simp))) nostore_wait_OSC32KS) nostore_wait_PITSTATUS)
    (nostore_store _ _ _ (by simp))) (by simp)

theorem nostore_initSleepMode : Local initSleepMode ∧ NoSemaphoreStore initSleepMode :=
  nostore_call _ (seq_nostore (nostore_store _ _ _ (by simp)) (nostore_SLPCTRL_CTRLA_or _))
    (by simp)

theorem nostore_disableAllPeripherals :
    Local disableAllPeripherals ∧ NoSemaphoreStore disableAllPeripherals :=
  nostore_call _ (seq_nostore (seq_nostore (seq_nostore (seq_nostore (seq_nostore (seq_nostore
    (seq_nostore (seq_nostore (seq_nostore (seq_nostore (seq_nostore
    (nostore_store _ _ _ (by simp)) (nostore_store _ _ _ (by simp)))
    (nostore_store _ _ _ (by simp))) (nostore_store _ _ _ (by simp)))
    (nostore_store _ _ _ (by simp))) (nostore_store _ _ _ (by simp)))
    (nostore_store _ _ _ (by simp))) (nostore_store _ _ _ (by simp)))
    (nostore_store _ _ _ (by simp))) (nostore_store _ _ _ (by simp)))
    (nostore_store _ _ _ (by simp))) (nostore_store _ _ _ (by simp))) (by simp)

theorem nostore_setup : Local setup ∧ NoSemaphoreStore setup :=
  nostore_call _ (seq_nostore (seq_nostore initSerialGPIO_nostore nostore_init32kOscRTCPIT)
    nostore_initSleepMode) (by simp)

theorem nostore_flashByte_for (fuel i val : Nat) :
    Local (flashByte_for fuel i val) ∧ NoSemaphoreStore (flashByte_for fuel i val) := by
  induction fuel generalizing i val with
  | zero => exact nostore_id
  | succ fuel ih =>
    by_cases hi : i < 8
    · by_cases hb : val &&& 1 ≠ 0
      · exact nostore_of_eq (seq_nostore (seq_nostore (seq_nostore (seq_nostore nostore_ledOn
          (nostore_delay 700)) nostore_ledOff) (nostore_delay 1000))
          (ih ((i + 1) % 256) ((val >>> 1) % 256))) fun s => by
            simp only [flashByte_for, if_pos hi, if_pos hb]
      · exact nostore_of_eq (seq_nostore (seq_nostore (seq_nostore (seq_nostore nostore_ledOn
          (nostore_delay 100)) nostore_ledOff) (nostore_delay 1000))
          (ih ((i + 1) % 256) ((val >>> 1) % 256))) fun s => by
            simp only [flashByte_for, if_pos hi, if_neg hb]
    · exact nostore_of_eq nostore_id fun s => by simp [flashByte_for, hi]

theorem nostore_flashByte (val : Nat) : Local (flashByte val) ∧ NoSemaphoreStore (flashByte val) :=
  nostore_call _ (nostore_flashByte_for _ _ _) (by simp)

/-- The handler logs exactly one store to `rtcIntSemaphore`, of the value 1. -/
theorem writesTo_ISR_RTC_PIT (s : Machine) :
    writesTo .rtcIntSemaphore (logOf ISR_RTC_PIT s) = [1] := by
  simp [writesTo, logOf, ISR_RTC_PIT, call, emit, store, RTC_PITINTFLAGS, set_rtcIntSemaphore]

/-! ## The main flow and the handler -/

theorem writesTo_append (r : Reg) (l₁ l₂ : List Entry) :
    writesTo r (l₁ ++ l₂) = writesTo r l₁ ++ writesTo r l₂ := by
  simp [writesTo]

theorem mainFlow_append (fr : Option Nat) (l₁ l₂ : List Entry) :
    mainFlow fr (l₁ ++ l₂) = mainFlow fr l₁ ++ mainFlow (frameAfter fr l₁) l₂ := by
  induction l₁ generalizing fr with
  | nil => rfl
  | cons x l ih =>
    show mainFlow fr (x :: (l ++ l₂)) = mainFlow fr (x :: l) ++ mainFlow (frameAfter fr (x :: l)) l₂
    simp only [mainFlow, frameAfter]
    rw [ih]
    split <;> simp

theorem frameAfter_append (fr : Option Nat) (l₁ l₂ : List Entry) :
    frameAfter fr (l₁ ++ l₂) = frameAfter (frameAfter fr l₁) l₂ := by
  induction l₁ generalizing fr with
  | nil => rfl
  | cons x l ih =>
    show frameAfter fr (x :: (l ++ l₂)) = frameAfter (frameAfter fr (x :: l)) l₂
    simp only [frameAfter]
    rw [ih]

/-- A statement of the interrupted frame, or of a frame above it, is outside
the handler frame. -/
theorem inFrame_of_le {fr : Option Nat} {x : Entry} (h : ∀ d, fr = some d → x.depth ≤ d) :
    inFrame fr x = false := by
  cases fr with
  | none => rfl
  | some d =>
    have := h d rfl
    simp only [inFrame, decide_eq_false_iff_not]
    omega

theorem mainflow_of_eq {f g : Machine → Machine} (hf : Local f ∧ MainFlowKeeps f)
    (h : ∀ s, g s = f s) : Local g ∧ MainFlowKeeps g := by
  have : g = f := funext h
  rw [this]; exact hf

theorem mainflow_id : Local (fun s => s) ∧ MainFlowKeeps fun s => s :=
  ⟨local_id, fun s fr hfr => by
    have : logOf (fun s => s) s = [] := rfl
    rw [this]
    exact ⟨rfl, hfr⟩⟩

theorem seq_mainflow {f g : Machine → Machine} (hf : Local f ∧ MainFlowKeeps f)
    (hg : Local g ∧ MainFlowKeeps g) :
    Local (fun s => g (f s)) ∧ MainFlowKeeps fun s => g (f s) := by
  refine ⟨local_comp hf.1 hg.1, fun s fr hfr => ?_⟩
  obtain ⟨h1, h2⟩ := hf.2 s fr hfr
  have h2' : ∀ d, frameAfter fr (logOf f s) = some d → (f s).depth ≤ d := by
    rw [hf.1.depth]; exact h2
  obtain ⟨h3, h4⟩ := hg.2 (f s) _ h2'
  rw [logOf_comp hf.1 hg.1, mainFlow_append, writesTo_append, frameAfter_append, h1, h3]
  rw [hf.1.depth] at h4
  exact ⟨rfl, h4⟩

/-- One entry of the main flow that is neither a handler invocation nor a store
to `rtcIntSemaphore`. -/
theorem mainFlow_cons {fr : Option Nat} {x : Entry} (l : List Entry)
    (hfr : ∀ d, fr = some d → x.depth ≤ d) (h1 : x.ev ≠ .ISR_RTC_PIT)
    (h2 : ∀ v, x.ev ≠ .write .rtcIntSemaphore v) :
    writesTo .rtcIntSemaphore (mainFlow fr (x :: l)) =
      writesTo .rtcIntSemaphore (mainFlow none l) ∧
    frameAfter fr (x :: l) = frameAfter none l := by
  have hin := inFrame_of_le hfr
  have hstep : frameStep fr x = none := by simp [frameStep, hin, h1]
  have hx : writesTo .rtcIntSemaphore [x] = [] := by
    cases hev : x.ev with
    | write r v =>
      have : r ≠ .rtcIntSemaphore := fun hr => h2 v (by rw [hev, hr])
      simp [writesTo, hev, this]
    | _ => simp [writesTo, hev]
  refine ⟨?_, by simp only [frameAfter, hstep]⟩
  simp only [mainFlow, hin, h1, hstep, or_self, if_false, Bool.false_eq_true]
  rw [← List.singleton_append, writesTo_append, hx, List.nil_append]

theorem mainflow_store (r : Reg) (v : Nat) (upd : Regs → Regs) (hr : r ≠ .rtcIntSemaphore) :
    Local (store r v upd) ∧ MainFlowKeeps (store r v upd) :=
  ⟨local_store r v upd, fun s fr hfr => by
    have hlog : logOf (store r v upd) s = [⟨s.depth, .write r v, s.regs⟩] := by
      simp [logOf, store, emit]
    obtain ⟨h1, h2⟩ := mainFlow_cons (x := ⟨s.depth, .write r v, s.regs⟩) [] hfr (by simp)
      (fun w hw => hr (by simp only [Event.write.injEq] at hw; exact hw.1))
    rw [hlog, h1, h2]
    exact ⟨rfl, fun d hd => by simp [frameAfter] at hd⟩⟩

theorem mainflow_delay (ms : Nat) : Local (delay ms) ∧ MainFlowKeeps (delay ms) :=
  ⟨local_delay ms, fun s fr hfr => by
    have hlog : logOf (delay ms) s = [⟨s.depth, .delay ms, s.regs⟩] := by
      simp [logOf, delay, emit]
    obtain ⟨h1, h2⟩ := mainFlow_cons (x := ⟨s.depth, .delay ms, s.regs⟩) [] hfr (by simp)
      (by simp)
    rw [hlog, h1, h2]
    exact ⟨rfl, fun d hd => by simp [frameAfter] at hd⟩⟩

/-- A call made by the main flow: the call entry closes any handler frame left
open, then the body runs in the main flow. -/
theorem mainflow_call (e : Event) {body : Machine → Machine}
    (hb : Local body ∧ MainFlowKeeps body) (h1 : e ≠ .ISR_RTC_PIT)
    (h2 : ∀ v, e ≠ .write .rtcIntSemaphore v) :
    Local (call e body) ∧ MainFlowKeeps (call e body) := by
  refine ⟨local_call e hb.1, fun s fr hfr => ?_⟩
  obtain ⟨h3, h4⟩ := mainFlow_cons (x := ⟨s.depth, e, s.regs⟩)
    (logOf body ⟨s.regs, s.depth + 1, []⟩) hfr h1 h2
  obtain ⟨h5, h6⟩ := hb.2 ⟨s.regs, s.depth + 1, []⟩ none (fun d hd => by simp at hd)
  rw [logOf_call e body hb.1, h3, h4]
  exact ⟨h5, fun d hd => Nat.le_of_succ_le (h6 d hd)⟩

/-- An invocation of the handler opens a frame at its own depth. -/
theorem mainFlow_enter {fr : Option Nat} {x : Entry} (l : List Entry)
    (hfr : ∀ d, fr = some d → x.depth ≤ d) (h : x.ev = .ISR_RTC_PIT) :
    mainFlow fr (x :: l) = mainFlow (some x.depth) l ∧
    frameAfter fr (x :: l) = frameAfter (some x.depth) l := by
  have hin := inFrame_of_le hfr
  have hstep : frameStep fr x = some x.depth := by simp [frameStep, hin, h]
  constructor
  · simp only [mainFlow, h, hstep, or_true, if_true]
  · simp only [frameAfter, hstep]

/-- What is logged deeper than the open frame belongs to the handler. -/
theorem mainFlow_inside {d : Nat} {x : Entry} (l : List Entry) (h : d < x.depth) :
    mainFlow (some d) (x :: l) = mainFlow (some d) l ∧
    frameAfter (some d) (x :: l) = frameAfter (some d) l := by
  have hin : inFrame (some d) x = true := by simp [inFrame, h]
  have hstep : frameStep (some d) x = some d := by simp [frameStep, hin]
  constructor
  · simp only [mainFlow, hin, hstep, true_or, if_true]
  · simp only [frameAfter, hstep]

/-- An invocation of the handler: everything it logs is in its own frame. -/
theorem mainflow_ISR_RTC_PIT : Local ISR_RTC_PIT ∧ MainFlowKeeps ISR_RTC_PIT :=
  ⟨local_ISR_RTC_PIT, fun s fr hfr => by
    have hlog : logOf ISR_RTC_PIT s =
        [⟨s.depth, .ISR_RTC_PIT, s.regs⟩,
         ⟨s.depth + 1, .write .RTC_PITINTFLAGS RTC_PI_bm, s.regs⟩,
         ⟨s.depth + 1, .write .rtcIntSemaphore 1,
           { s.regs with RTC_PITINTFLAGS := s.regs.RTC_PITINTFLAGS &&& (0xFF ^^^ RTC_PI_bm) }⟩] := by
      simp [logOf, ISR_RTC_PIT, call, emit, store, RTC_PITINTFLAGS, set_rtcIntSemaphore]
    rw [hlog]
    obtain ⟨h1, h2⟩ := mainFlow_enter (x := ⟨s.depth, .ISR_RTC_PIT, s.regs⟩)
      [⟨s.depth + 1, .write .RTC_PITINTFLAGS RTC_PI_bm, s.regs⟩,
       ⟨s.depth + 1, .write .rtcIntSemaphore 1,
         { s.regs with RTC_PITINTFLAGS := s.regs.RTC_PITINTFLAGS &&& (0xFF ^^^ RTC_PI_bm) }⟩]
      hfr rfl
    obtain ⟨h3, h4⟩ := mainFlow_inside (d := s.depth)
      (x := ⟨s.depth + 1, .write .RTC_PITINTFLAGS RTC_PI_bm, s.regs⟩)
      [⟨s.depth + 1, .write .rtcIntSemaphore 1,
         { s.regs with RTC_PITINTFLAGS := s.regs.RTC_PITINTFLAGS &&& (0xFF ^^^ RTC_PI_bm) }⟩]
      (Nat.lt_succ_self _)
    obtain ⟨h5, h6⟩ := mainFlow_inside (d := s.depth)
      (x := ⟨s.depth + 1, .write .rtcIntSemaphore 1,
         { s.regs with RTC_PITINTFLAGS := s.regs.RTC_PITINTFLAGS &&& (0xFF ^^^ RTC_PI_bm) }⟩)
      [] (Nat.lt_succ_self _)
    rw [h1, h2, h3, h4, h5, h6]
    refine ⟨rfl, fun d hd => ?_⟩
    simp only [frameAfter, Option.some.injEq] at hd
    omega⟩

theorem mainflow_sleep_cpu :
    Local (sleep_cpu ISR_RTC_PIT) ∧ MainFlowKeeps (sleep_cpu ISR_RTC_PIT) :=
  mainflow_call .sleep_cpu mainflow_ISR_RTC_PIT (by simp) (by simp)

theorem mainflow_ledOn : Local ledOn ∧ MainFlowKeeps ledOn :=
  mainflow_call _ (mainflow_store _ _ _ (by simp)) (by simp) (by simp)

theorem mainflow_ledOff : Local ledOff ∧ MainFlowKeeps ledOff :=
  mainflow_call _ (mainflow_store _ _ _ (by simp)) (by simp) (by simp)

theorem initSerialGPIO_mainflow : Local initSerialGPIO ∧ MainFlowKeeps initSerialGPIO :=
  mainflow_call _ (seq_mainflow (seq_mainflow (seq_mainflow
    (mainflow_store _ _ _ (by simp)) (mainflow_store _ _ _ (by simp)))
    (mainflow_store _ _ _ (by simp))) (mainflow_store _ _ _ (by simp))) (by simp) (by simp)

theorem mainflow_disableAllPeripherals :
    Local disableAllPeripherals ∧ MainFlowKeeps disableAllPeripherals :=
  mainflow_call _ (seq_mainflow (seq_mainflow (seq_mainflow (seq_mainflow (seq_mainflow
    (seq_mainflow (seq_mainflow (seq_mainflow (seq_mainflow (seq_mainflow (seq_mainflow
    (mainflow_store _ _ _ (by simp)) (mainflow_store _ _ _ (by simp)))
    (mainflow_store _ _ _ (by simp))) (mainflow_store _ _ _ (by simp)))
    (mainflow_store _ _ _ (by simp))) (mainflow_store _ _ _ (by simp)))
    (mainflow_store _ _ _ (by simp))) (mainflow_store _ _ _ (by simp)))
    (mainflow_store _ _ _ (by simp))) (mainflow_store _ _ _ (by simp)))
    (mainflow_store _ _ _ (by simp))) (mainflow_store _ _ _ (by simp))) (by simp) (by simp)

theorem mainflow_sleepNCycles_for (fuel i val : Nat) :
    Local (sleepNCycles_for ISR_RTC_PIT fuel i val) ∧
    MainFlowKeeps (sleepNCycles_for ISR_RTC_PIT fuel i val) := by
  induction fuel generalizing i with
  | zero => exact mainflow_id
  | succ fuel ih =>
    by_cases hi : i < val
    · exact mainflow_of_eq (seq_mainflow mainflow_sleep_cpu (ih ((i + 1) % 256))) fun s => by
        simp [sleepNCycles_for, hi]
    · exact mainflow_of_eq mainflow_id fun s => by simp [sleepNCycles_for, hi]

theorem mainflow_sleepNCycles (val : Nat) :
    Local (sleepNCycles ISR_RTC_PIT val) ∧ MainFlowKeeps (sleepNCycles ISR_RTC_PIT val) :=
  mainflow_call _ (seq_mainflow (seq_mainflow mainflow_disableAllPeripherals
    (mainflow_sleepNCycles_for _ _ _)) initSerialGPIO_mainflow) (by simp) (by simp)

theorem mainflow_loop_body :
    Local (loop_body ISR_RTC_PIT) ∧ MainFlowKeeps (loop_body ISR_RTC_PIT) :=
  mainflow_of_eq
    (seq_mainflow (seq_mainflow (seq_mainflow (seq_mainflow (seq_mainflow (seq_mainflow
      (seq_mainflow (seq_mainflow (seq_mainflow (seq_mainflow (seq_mainflow
      mainflow_ledOn (mainflow_delay 100)) mainflow_ledOff) (mainflow_sleepNCycles 3))
      mainflow_ledOn) (mainflow_delay 100)) mainflow_ledOff) (mainflow_sleepNCycles 3))
      mainflow_ledOn) (mainflow_delay 100)) mainflow_ledOff) (mainflow_sleepNCycles 8))
    fun _ => rfl

/-- The main flow view keeps a store that the main flow makes: were `sleep_cpu`
to reset the variable once the handler has returned, the store would show. -/
theorem mainFlow_shows_store_after_wake :
    writesTo .rtcIntSemaphore (mainFlow none
      (logOf (call .sleep_cpu fun s => set_rtcIntSemaphore 0 (ISR_RTC_PIT s)) (boot regs0))) =
      [0] := by
  decide

/-- The main flow view of `sleepNCycles(2)`: the log without the two handler
frames, nothing else removed. -/
theorem mainFlow_sleepNCycles_two :
    (mainFlow none (logOf (sleepNCycles ISR_RTC_PIT 2) (boot regs0))).map Entry.ev =
      [.sleepNCycles 2, .disableAllPeripherals,
       .write .PORTA_DIRCLR 1, .write .PORTA_DIRCLR 2, .write .PORTA_DIRCLR 4,
       .write .PORTA_DIRCLR 8, .write .PORTA_DIRCLR 64, .write .PORTA_DIRCLR 128,
       .write (.PORTA_PINCTRL 0) 4, .write (.PORTA_PINCTRL 1) 4, .write (.PORTA_PINCTRL 2) 4,
       .write (.PORTA_PINCTRL 3) 4, .write (.PORTA_PINCTRL 6) 4, .write (.PORTA_PINCTRL 7) 4,
       .sleep_cpu, .sleep_cpu, Event.initSerialGPIO,
       .write .PORTA_DIRSET 2, .write .PORTA_OUTCLR 2, .write .PORTA_DIRSET 4,
       .write .PORTA_OUTCLR 4] := by
  decide

/-- After `n` invocations of the handler alone the variable is 1, unless `n = 0`. -/
theorem sem_ISR_iterate (n : Nat) (s : Machine) :
    (ISR_RTC_PIT^[n] s).regs.rtcIntSemaphore = if n = 0 then s.regs.rtcIntSemaphore else 1 := by
  cases n with
  | zero => rfl
  | succ n =>
    rw [Function.iterate_succ_apply', if_neg (Nat.succ_ne_zero n)]
    rfl

/-- After `n` halts the variable is 1, unless `n = 0`. -/
theorem sem_sleep_iterate (n : Nat) (s : Machine) :
    ((sleep_cpu ISR_RTC_PIT)^[n] s).regs.rtcIntSemaphore =
      if n = 0 then s.regs.rtcIntSemaphore else 1 := by
  cases n with
  | zero => rfl
  | succ n =>
    rw [Function.iterate_succ_apply', if_neg (Nat.succ_ne_zero n)]
    rfl

theorem sleepNCycles_mod (isr : Machine → Machine) (val : Nat) :
    sleepNCycles isr val = sleepNCycles isr (val % 256) := by
  simp only [sleepNCycles, Nat.mod_mod]

/-- What `sleepNCycles(val)` does to the variable is what `val` invocations of
the handler do to it. -/
theorem sem_sleepNCycles (val : Nat) (s : Machine) :
    (sleepNCycles ISR_RTC_PIT val s).regs.rtcIntSemaphore =
      (ISR_RTC_PIT^[val % 256] s).regs.rtcIntSemaphore := by
  have hlt : val % 256 ≤ 255 := by omega
  rw [sleepNCycles_mod, sleepNCycles_eq ISR_RTC_PIT (val % 256) hlt, sem_ISR_iterate]
  show ( initSerialGPIO ((sleep_cpu ISR_RTC_PIT)^[val % 256]
    (disableAllPeripherals _))).regs.rtcIntSemaphore = _
  rw [initSerialGPIO_keeps, sem_sleep_iterate, keeps_disableAllPeripherals]
  rfl

/-- What one pass of `loop` does to the variable is what the fourteen
invocations of the handler during its halts do to it. -/
theorem sem_loop_body (s : Machine) :
    (loop_body ISR_RTC_PIT s).regs.rtcIntSemaphore =
      (ISR_RTC_PIT^[14] s).regs.rtcIntSemaphore := by
  rw [sem_ISR_iterate]
  show (sleepNCycles ISR_RTC_PIT 8 _).regs.rtcIntSemaphore = _
  rw [sem_sleepNCycles, sem_ISR_iterate]
  rfl

/-! ## The byte flasher -/

theorem and_one_ne_zero_iff (val : Nat) : val &&& 1 ≠ 0 ↔ val.testBit 0 = true := by
  simp [Nat.testBit_zero, Nat.and_one_is_mod]

/-- The pulses of the loop of `flashByte` from counter value `i` on: one per
remaining bit, lowest remaining bit first. -/
theorem shows_flashByte_for (fuel i val : Nat) (hi : i ≤ 8) (hfuel : 8 - i < fuel)
    (hval : val < 256) :
    Shows (flashByte_for fuel i val)
      ((List.range (8 - i)).flatMap fun j => pulse (val.testBit j)) := by
  induction fuel generalizing i val with
  | zero => omega
  | succ fuel ih =>
    by_cases h : i < 8
    · have hi1 : (i + 1) % 256 = i + 1 := Nat.mod_eq_of_lt (by omega)
      have hv1 : (val >>> 1) % 256 = val >>> 1 := by
        apply Nat.mod_eq_of_lt
        rw [Nat.shiftRight_eq_div_pow]
        omega
      have hv2 : val >>> 1 < 256 := by
        rw [Nat.shiftRight_eq_div_pow]
        omega
      have hrec := ih (i + 1) (val >>> 1) (by omega) (by omega) hv2
      have hsub : 8 - i = (8 - (i + 1)) + 1 := by omega
      have hlist : ((List.range (8 - i)).flatMap fun j => pulse (val.testBit j)) =
          pulse (val.testBit 0) ++
            ((List.range (8 - (i + 1))).flatMap fun j => pulse ((val >>> 1).testBit j)) := by
        rw [hsub, List.range_succ_eq_map]
        simp [List.flatMap_cons, List.flatMap_map, Nat.testBit_shiftRight, Nat.add_comm]
      rw [hlist]
      by_cases hb : val &&& 1 ≠ 0
      · have hbit : val.testBit 0 = true := (and_one_ne_zero_iff val).1 hb
        rw [hbit]
        exact shows_of_eq
          (seq_shows (seq_shows (seq_shows (seq_shows shows_ledOn (shows_delay 700)) shows_ledOff)
            (shows_delay 1000)) ⟨local_flashByte_for _ _ _, hrec⟩).2
          fun s => by simp only [flashByte_for, if_pos h, if_pos hb, hi1, hv1]
      · have hbit : val.testBit 0 = false := by
          rw [← Bool.not_eq_true]
          exact fun hc => hb ((and_one_ne_zero_iff val).2 hc)
        rw [hbit]
        exact shows_of_eq
          (seq_shows (seq_shows (seq_shows (seq_shows shows_ledOn (shows_delay 100)) shows_ledOff)
            (shows_delay 1000)) ⟨local_flashByte_for _ _ _, hrec⟩).2
          fun s => by simp only [flashByte_for, if_pos h, if_neg hb, hi1, hv1]
    · have hsub : 8 - i = 0 := by omega
      rw [hsub]
      exact shows_of_eq shows_id fun s => by simp [flashByte_for, h]

/-! ## The LED at halts -/

theorem lastLedOp_append (g : Option Event) (l₁ l₂ : List Entry) :
    lastLedOp g (l₁ ++ l₂) = lastLedOp (lastLedOp g l₁) l₂ := by
  induction l₁ generalizing g with
  | nil => rfl
  | cons x l ih => simp [lastLedOp, ih]

theorem logOk_append (g : Option Event) (l₁ l₂ : List Entry) :
    logOk g (l₁ ++ l₂) ↔ logOk g l₁ ∧ logOk (lastLedOp g l₁) l₂ := by
  induction l₁ generalizing g with
  | nil => simp [logOk, lastLedOp]
  | cons x l ih => simp [logOk, lastLedOp, ih, and_assoc]

/-- In an acceptable log, each entry is acceptable after what precedes it. -/
theorem logOk_split {g : Option Event} {l pre post : List Entry} {x : Entry}
    (h : logOk g l) (hl : l = pre ++ x :: post) : entryOk (lastLedOp g pre) x := by
  subst hl
  exact ((logOk_append g pre (x :: post)).1 h).2.1

theorem safe_of_eq {p q : Option Event → Regs → Prop} {f g : Machine → Machine}
    (hf : Safe p q f) (h : ∀ s, g s = f s) : Safe p q g := by
  have : g = f := funext h
  rw [this]; exact hf

theorem safe_id (p : Option Event → Regs → Prop) : Safe p p fun s => s := fun s g hp => by
  simpa [logOf, logOk, lastLedOp] using hp

/-- Sequencing: the second statement starts where the first one ends. -/
theorem seq_safe {p q r : Option Event → Regs → Prop} {f g : Machine → Machine}
    (hf : Local f ∧ Safe p q f) (hg : Local g ∧ Safe q r g) :
    Local (fun s => g (f s)) ∧ Safe p r fun s => g (f s) := by
  refine ⟨local_comp hf.1 hg.1, fun s g₀ hp => ?_⟩
  obtain ⟨h1, hq⟩ := hf.2 s g₀ hp
  obtain ⟨h2, hr⟩ := hg.2 (f s) _ hq
  rw [logOf_comp hf.1 hg.1, logOk_append, lastLedOp_append]
  exact ⟨⟨h1, h2⟩, hr⟩

theorem safe_iterate {p : Option Event → Regs → Prop} {f : Machine → Machine}
    (hf : Local f ∧ Safe p p f) (n : Nat) : Local f^[n] ∧ Safe p p f^[n] := by
  induction n with
  | zero => exact ⟨local_id, safe_id p⟩
  | succ n ih =>
    exact ⟨local_iterate hf.1 _, safe_of_eq (seq_safe hf ih).2 fun s => by
      simp [Function.iterate_succ]⟩

theorem safe_delay (p : Option Event → Regs → Prop) (ms : Nat) :
    Local (delay ms) ∧ Safe p p (delay ms) :=
  ⟨local_delay ms, fun s g hp => by
    simpa [logOf, delay, emit, logOk, lastLedOp, entryOk, ledOpOf] using hp⟩

theorem safe_ledOn : Local ledOn ∧ Safe ledReady ledReady ledOn :=
  ⟨local_ledOn, fun s g hp => by
    simpa [logOf, ledOn, call, emit, store, PORTA_OUTSET, logOk, lastLedOp, entryOk, ledOpOf,
      ledReady, PA1_output] using hp⟩

theorem safe_ledOff : Local ledOff ∧ Safe ledReady ledIsOff ledOff :=
  ⟨local_ledOff, fun s g _ => by
    simp +decide [logOf, ledOff, call, emit, store, PORTA_OUTCLR, logOk, lastLedOp, entryOk,
      ledOpOf, ledIsOff, PA1_low, PIN1_bm, Nat.testBit_and]⟩

theorem safe_disableAllPeripherals :
    Local disableAllPeripherals ∧ Safe ledIsOff ledAsleep disableAllPeripherals :=
  ⟨local_disableAllPeripherals, fun s g hp => by
    obtain ⟨hg, hlow⟩ := hp
    refine ⟨?_, ?_, ?_, ?_⟩
    · simp [logOf, disableAllPeripherals, call, emit, store, PORTA_DIRCLR, PORTA_PIN0CTRL,
        PORTA_PIN1CTRL, PORTA_PIN2CTRL, PORTA_PIN3CTRL, PORTA_PIN6CTRL, PORTA_PIN7CTRL, logOk,
        entryOk]
    · simpa [logOf, disableAllPeripherals, call, emit, store, PORTA_DIRCLR, PORTA_PIN0CTRL,
        PORTA_PIN1CTRL, PORTA_PIN2CTRL, PORTA_PIN3CTRL, PORTA_PIN6CTRL, PORTA_PIN7CTRL,
        lastLedOp, ledOpOf] using hg
    · rw [disableAllPeripherals_regs]; exact hlow
    · rw [disableAllPeripherals_regs]
      simp +decide [Nat.testBit_and]⟩

theorem safe_sleep_cpu :
    Local (sleep_cpu ISR_RTC_PIT) ∧ Safe ledAsleep ledAsleep (sleep_cpu ISR_RTC_PIT) :=
  ⟨local_sleep_cpu local_ISR_RTC_PIT, fun s g hp => by
    obtain ⟨hg, hdark⟩ := hp
    refine ⟨?_, ?_, ?_⟩
    · simp [logOf, sleep_cpu, ISR_RTC_PIT, call, emit, store, RTC_PITINTFLAGS,
        set_rtcIntSemaphore, logOk, entryOk, ledOpOf, hg, hdark]
    · simpa [logOf, sleep_cpu, ISR_RTC_PIT, call, emit, store, RTC_PITINTFLAGS,
        set_rtcIntSemaphore, lastLedOp, ledOpOf] using hg
    · exact hdark⟩

theorem initSerialGPIO_safe (p : Option Event → Regs → Prop) :
    Local initSerialGPIO ∧ Safe p ledReady initSerialGPIO :=
  ⟨initSerialGPIO_local, fun s g _ => by
    refine ⟨?_, ?_⟩
    · simp [logOf, initSerialGPIO, call, emit, store, PORTA_DIRSET, PORTA_OUTCLR, logOk, entryOk]
    · show PA1_output _
      rw [initSerialGPIO_regs]
      simp +decide [PA1_output, Nat.testBit_or]⟩

/-- A call of a function that is neither `sleep_cpu` nor an LED operation. -/
theorem safe_call {p q : Option Event → Regs → Prop} {body : Machine → Machine} (e : Event)
    (hb : Local body ∧ Safe p q body) (h1 : e ≠ .sleep_cpu) (h2 : e ≠ .ledOn)
    (h3 : e ≠ .ledOff) (h4 : e ≠ .ledToggle) :
    Local (call e body) ∧ Safe p q (call e body) := by
  refine ⟨local_call e hb.1, fun s g hp => ?_⟩
  obtain ⟨hlog, hpost⟩ := hb.2 ⟨s.regs, s.depth + 1, []⟩ g hp
  have hop : ledOpOf ⟨s.depth, e, s.regs⟩ = none := by
    cases e <;> simp_all [ledOpOf]
  rw [logOf_call e body hb.1, regs_call e body hb.1]
  simp only [logOk, lastLedOp, hop, Option.orElse]
  exact ⟨⟨⟨fun h => absurd h h1, fun h => absurd h h2⟩, hlog⟩, hpost⟩

/-- For a byte argument, `sleepNCycles` may start once the LED has been
switched off, and leaves the LED pin an output. -/
theorem safe_sleepNCycles (val : Nat) (hval : val ≤ 255) :
    Local (sleepNCycles ISR_RTC_PIT val) ∧
    Safe ledIsOff ledReady (sleepNCycles ISR_RTC_PIT val) := by
  rw [sleepNCycles_eq ISR_RTC_PIT val hval]
  exact safe_call _
    (seq_safe (seq_safe safe_disableAllPeripherals (safe_iterate safe_sleep_cpu val))
      (initSerialGPIO_safe _))
    (by simp) (by simp) (by simp) (by simp)

theorem safe_loop_body :
    Local (loop_body ISR_RTC_PIT) ∧ Safe ledReady ledReady (loop_body ISR_RTC_PIT) :=
  ⟨local_loop_body local_ISR_RTC_PIT, safe_of_eq
    (seq_safe (seq_safe (seq_safe (seq_safe (seq_safe (seq_safe (seq_safe (seq_safe
      (seq_safe (seq_safe (seq_safe
      safe_ledOn (safe_delay _ 100)) safe_ledOff) (safe_sleepNCycles 3 (by decide)))
      safe_ledOn) (safe_delay _ 100)) safe_ledOff) (safe_sleepNCycles 3 (by decide)))
      safe_ledOn) (safe_delay _ 100)) safe_ledOff) (safe_sleepNCycles 8 (by decide))).2
    fun _ => rfl⟩

theorem safe_loop_while (k : Nat) :
    Local (loop_while ISR_RTC_PIT k) ∧ Safe ledReady ledReady (loop_while ISR_RTC_PIT k) := by
  induction k with
  | zero => exact ⟨local_id, safe_id _⟩
  | succ k ih =>
    exact ⟨local_loop_while local_ISR_RTC_PIT _, safe_of_eq (seq_safe safe_loop_body ih).2
      fun _ => rfl⟩

theorem safe_setup : Local setup ∧ Safe anyState ledReady setup :=
  ⟨local_setup, fun s g _ => by
    refine ⟨?_, ?_⟩
    · simp [logOf, setup, initSerialGPIO, init32kOscRTCPIT, initSleepMode, call, emit, store,
        PORTA_DIRSET, PORTA_OUTCLR, PROTECTED_WRITE_OSC32KCTRLA, RTC_CLKSEL, RTC_PITCTRLA,
        RTC_PITINTCTRL, wait_OSC32KS, wait_PITSTATUS, SLPCTRL_CTRLA, SLPCTRL_CTRLA_or, logOk,
        entryOk]
    · show PA1_output _
      simp +decide [setup, initSerialGPIO, init32kOscRTCPIT, initSleepMode, call, emit, store,
        PORTA_DIRSET, PORTA_OUTCLR, PROTECTED_WRITE_OSC32KCTRLA, RTC_CLKSEL, RTC_PITCTRLA,
        RTC_PITINTCTRL, wait_OSC32KS, wait_PITSTATUS, SLPCTRL_CTRLA, SLPCTRL_CTRLA_or,
        PA1_output, PIN1_bm, PIN2_bm, Nat.testBit_or]⟩

/-- The log after `k` passes of `loop()`: the log so far, the call, the passes. -/
theorem trace_loop {isr : Machine → Machine} (h : Local isr) (k : Nat) (s : Machine) :
    (loop isr k s).trace = s.trace ++
      (⟨s.depth, .loop, s.regs⟩ :: logOf (loop_while isr k) ⟨s.regs, s.depth + 1, []⟩) := by
  show (loop_while isr k ⟨s.regs, s.depth + 1, s.trace ++ [⟨s.depth, .loop, s.regs⟩]⟩).trace = _
  rw [(local_loop_while h k).trace, logOf_congr (loop_while isr k) ⟨s.regs, s.depth + 1, []⟩]
  simp only [List.append_assoc, List.singleton_append]

/-- The whole log of `setup()` followed by `k` passes of `loop()` is acceptable. -/
theorem logOk_run (k : Nat) (r : Regs) : logOk none (run k r).trace := by
  obtain ⟨hs, hready⟩ := safe_setup.2 (boot r) none trivial
  have h0 : (setup (boot r)).depth = 0 := local_setup.depth (boot r)
  have h1 : (setup (boot r)).trace = logOf setup (boot r) := by
    rw [local_setup.trace (boot r)]
    exact List.nil_append _
  have hrun : (run k r).trace = logOf setup (boot r) ++
      (⟨0, .loop, (setup (boot r)).regs⟩ ::
        logOf (loop_while ISR_RTC_PIT k) ⟨(setup (boot r)).regs, 0 + 1, []⟩) := by
    unfold run
    rw [trace_loop local_ISR_RTC_PIT, h0, h1]
  obtain ⟨hl, -⟩ := (safe_loop_while k).2 ⟨(setup (boot r)).regs, 0 + 1, []⟩
    (lastLedOp none (logOf setup (boot r))) hready
  generalize logOf setup (boot r) = L₁ at hs hl hrun
  generalize logOf (loop_while ISR_RTC_PIT k) ⟨(setup (boot r)).regs, 0 + 1, []⟩ = L₂ at hl hrun
  generalize (setup (boot r)).regs = R at hrun
  rw [hrun, logOk_append]
  have hop : ledOpOf ⟨0, .loop, R⟩ = none := rfl
  refine ⟨hs, ⟨fun h => ?_, fun h => ?_⟩, ?_⟩
  · exact absurd h (by simp)
  · exact absurd h (by simp)
  · rw [hop]; exact hl

/-! ## Claims -/

/-- C1. One pass through the body of the `while(1)` of `loop()` makes exactly
the calls ledOn, delay(100), ledOff, sleepNCycles(3), ledOn, delay(100), ledOff,
sleepNCycles(3), ledOn, delay(100), ledOff, sleepNCycles(8) in its own frame;
after any number `k` of passes the frame of `loop()` shows that sequence `k`
times, and every sleepNCycles(8) in it is preceded by exactly three ledOn calls
since the previous sleepNCycles(8) (or since the start). -/
theorem loop_pattern (k : Nat) (s : Machine) :
    eventsAt s.depth (since s (loop_body ISR_RTC_PIT s)) =
      [.ledOn, .delay 100, .ledOff, .sleepNCycles 3,
       .ledOn, .delay 100, .ledOff, .sleepNCycles 3,
       .ledOn, .delay 100, .ledOff, .sleepNCycles 8] ∧
    eventsAt (s.depth + 1) (since s (loop ISR_RTC_PIT k s)) =
      (List.replicate k passEvents).flatten ∧
    ledOnsPerGroup 0 (eventsAt (s.depth + 1) (since s (loop ISR_RTC_PIT k s))) =
      List.replicate k 3 := by
  have h1 : eventsAt (s.depth + 1) (since s (loop ISR_RTC_PIT k s)) =
      (List.replicate k passEvents).flatten := by
    rw [since_loop local_ISR_RTC_PIT, eventsAt_cons_ne (Nat.ne_of_lt (Nat.lt_succ_self _))]
    exact shows_loop_while local_ISR_RTC_PIT k ⟨s.regs, s.depth + 1, []⟩
  refine ⟨?_, h1, ?_⟩
  · rw [(local_loop_body local_ISR_RTC_PIT).since]
    exact shows_loop_body local_ISR_RTC_PIT s
  · rw [h1, ledOnsPerGroup_passes]

/-- C2. For a byte `n`, `sleepNCycles(n)` runs to completion on the fuel it is
given (more fuel changes nothing), and the statements it executes in its body
are exactly: disableAllPeripherals, then `n` times sleep_cpu, then
initSerialGPIO; its caller sees the single call. -/
theorem sleepNCycles_trace (n : Nat) (hn : n ≤ 255) (s : Machine) :
    (∀ fuel s', 256 ≤ fuel →
      sleepNCycles_for ISR_RTC_PIT fuel 0 n s' = sleepNCycles_for ISR_RTC_PIT 256 0 n s') ∧
    eventsAt (s.depth + 1) (since s (sleepNCycles ISR_RTC_PIT n s)) =
      .disableAllPeripherals :: (List.replicate n .sleep_cpu ++ [Event.initSerialGPIO]) ∧
    eventsAt s.depth (since s (sleepNCycles ISR_RTC_PIT n s)) = [.sleepNCycles n] := by
  refine ⟨fun fuel s' hf => ?_, ?_, ?_⟩
  · rw [sleepNCycles_for_eq _ fuel 0 n s' hn (Nat.zero_le _) (by omega),
      sleepNCycles_for_eq _ 256 0 n s' hn (Nat.zero_le _) (by omega)]
  · rw [(local_sleepNCycles local_ISR_RTC_PIT n).since]
    exact eventsAt_sleepNCycles_body local_ISR_RTC_PIT n hn s
  · rw [(local_sleepNCycles local_ISR_RTC_PIT n).since]
    have := (shows_sleepNCycles local_ISR_RTC_PIT n).2 s
    rwa [Nat.mod_eq_of_lt (by omega)] at this

/-- C2 at `n = 0` from the reset state: quiesce, then restore, no halt. -/
theorem sleepNCycles_trace_witness :
    (0 : Nat) ≤ 255 ∧
    eventsAt ((boot regs0).depth + 1) (since (boot regs0) (sleepNCycles ISR_RTC_PIT 0 (boot regs0))) =
      [.disableAllPeripherals, Event.initSerialGPIO] :=
  ⟨by decide, (sleepNCycles_trace 0 (by decide) (boot regs0)).2.1⟩

/-- C3, as stated, fails: starting with every pin an output, pin 4 is still an
output after `disableAllPeripherals()` and its pin control register is not
`PORT_ISC_INPUT_DISABLE_gc`. -/
theorem disableAllPeripherals_skips_pin4 :
    ¬ ((disableAllPeripherals (boot regsFF)).regs.PORTA_DIR.testBit 4 = false ∧
       (disableAllPeripherals (boot regsFF)).regs.PINnCTRL 4 = PORT_ISC_INPUT_DISABLE_gc) := by
  decide

/-- C3, amended. For every prior state, after `disableAllPeripherals()` each of
the pins 0, 1, 2, 3, 6 and 7 of port A is an input with its input buffer
disabled; the direction bits and pin control registers of pins 4 and 5 are as
they were. -/
theorem disableAllPeripherals_pins (s : Machine) (n : Nat)
    (hn : n = 0 ∨ n = 1 ∨ n = 2 ∨ n = 3 ∨ n = 6 ∨ n = 7) :
    ((disableAllPeripherals s).regs.PORTA_DIR.testBit n = false ∧
      (disableAllPeripherals s).regs.PINnCTRL n = PORT_ISC_INPUT_DISABLE_gc) ∧
    (disableAllPeripherals s).regs.PORTA_DIR.testBit 4 = s.regs.PORTA_DIR.testBit 4 ∧
    (disableAllPeripherals s).regs.PORTA_DIR.testBit 5 = s.regs.PORTA_DIR.testBit 5 ∧
    (disableAllPeripherals s).regs.PINnCTRL 4 = s.regs.PINnCTRL 4 ∧
    (disableAllPeripherals s).regs.PINnCTRL 5 = s.regs.PINnCTRL 5 := by
  rw [disableAllPeripherals_regs]
  refine ⟨?_, ?_, ?_, rfl, rfl⟩
  · rcases hn with h | h | h | h | h | h <;> subst h <;>
      simp +decide [Regs.PINnCTRL, Nat.testBit_and]
  · simp +decide [Nat.testBit_and]
  · simp +decide [Nat.testBit_and]

/-- C3, amended, at pin 6 of a port whose pins were all outputs. -/
theorem disableAllPeripherals_pins_witness :
    (disableAllPeripherals (boot regsFF)).regs.PORTA_DIR.testBit 6 = false ∧
    (disableAllPeripherals (boot regsFF)).regs.PINnCTRL 6 = PORT_ISC_INPUT_DISABLE_gc :=
  (disableAllPeripherals_pins (boot regsFF) 6 (by decide)).1

/-- C4. For every prior state, after `initSerialGPIO()`, and so after
`sleepNCycles(n)` whatever `n` and whatever the handler did during the halts,
PA1 and PA2 are outputs and both are driven low. -/
theorem initSerialGPIO_restores (isr : Machine → Machine) (n : Nat) (s : Machine) :
    (( initSerialGPIO s).regs.PORTA_DIR.testBit 1 = true ∧
     ( initSerialGPIO s).regs.PORTA_DIR.testBit 2 = true ∧
     ( initSerialGPIO s).regs.PORTA_OUT.testBit 1 = false ∧
     ( initSerialGPIO s).regs.PORTA_OUT.testBit 2 = false) ∧
    ((sleepNCycles isr n s).regs.PORTA_DIR.testBit 1 = true ∧
     (sleepNCycles isr n s).regs.PORTA_DIR.testBit 2 = true ∧
     (sleepNCycles isr n s).regs.PORTA_OUT.testBit 1 = false ∧
     (sleepNCycles isr n s).regs.PORTA_OUT.testBit 2 = false) := by
  have key : ∀ s : Machine,
      ( initSerialGPIO s).regs.PORTA_DIR.testBit 1 = true ∧
      ( initSerialGPIO s).regs.PORTA_DIR.testBit 2 = true ∧
      ( initSerialGPIO s).regs.PORTA_OUT.testBit 1 = false ∧
      ( initSerialGPIO s).regs.PORTA_OUT.testBit 2 = false := fun s => by
    rw [initSerialGPIO_regs]
    simp +decide [Nat.testBit_and, Nat.testBit_or]
  obtain ⟨s', hs'⟩ := sleepNCycles_regs isr n s
  rw [hs']
  exact ⟨key s, key s'⟩

/-- C7. `disableAllPeripherals()` is idempotent on the register file: a second
call in a row changes no register. -/
theorem disableAllPeripherals_idempotent (s : Machine) :
    (disableAllPeripherals (disableAllPeripherals s)).regs = (disableAllPeripherals s).regs := by
  rw [disableAllPeripherals_regs, disableAllPeripherals_regs]
  simp only [Nat.and_assoc]
  rfl

/-- C8. For every prior state, after `initSleepMode()` the register
`SLPCTRL.CTRLA` is exactly `SLPCTRL_SMODE_PDOWN_gc | SLPCTRL_SEN_bm`: its mode
field selects power down and its sleep enable bit is set; a second call in a
row changes no register. -/
theorem initSleepMode_sets (s : Machine) :
    (initSleepMode s).regs.SLPCTRL_CTRLA = SLPCTRL_SMODE_PDOWN_gc ||| SLPCTRL_SEN_bm ∧
    (initSleepMode s).regs.SLPCTRL_CTRLA &&& SLPCTRL_SMODE_gm = SLPCTRL_SMODE_PDOWN_gc ∧
    (initSleepMode s).regs.SLPCTRL_CTRLA &&& SLPCTRL_SEN_bm = SLPCTRL_SEN_bm ∧
    (initSleepMode (initSleepMode s)).regs = (initSleepMode s).regs := by
  have hmode : (SLPCTRL_SMODE_PDOWN_gc ||| SLPCTRL_SEN_bm) &&& SLPCTRL_SMODE_gm =
      SLPCTRL_SMODE_PDOWN_gc := by decide
  have hsen : (SLPCTRL_SMODE_PDOWN_gc ||| SLPCTRL_SEN_bm) &&& SLPCTRL_SEN_bm =
      SLPCTRL_SEN_bm := by decide
  rw [initSleepMode_regs, initSleepMode_regs]
  exact ⟨rfl, hmode, hsen, rfl⟩

/-- C6. In what `init32kOscRTCPIT()` logs, `RTC.PITCTRLA` is stored to exactly
once, and the value stored is `RTC_PERIOD_CYC512_gc | RTC_PITEN_bm`: its enable
bit is set and its period field selects 512 cycles. -/
theorem init32kOscRTCPIT_single_write (s : Machine) :
    writesTo .RTC_PITCTRLA (since s (init32kOscRTCPIT s)) =
      [RTC_PERIOD_CYC512_gc ||| RTC_PITEN_bm] ∧
    (RTC_PERIOD_CYC512_gc ||| RTC_PITEN_bm) &&& RTC_PITEN_bm = RTC_PITEN_bm ∧
    (RTC_PERIOD_CYC512_gc ||| RTC_PITEN_bm) &&& RTC_PERIOD_gm = RTC_PERIOD_CYC512_gc := by
  refine ⟨?_, by decide, by decide⟩
  rw [local_init32kOscRTCPIT.since]
  simp [writesTo, logOf, init32kOscRTCPIT, call, emit, store, PROTECTED_WRITE_OSC32KCTRLA,
    RTC_CLKSEL, RTC_PITCTRLA, RTC_PITINTCTRL, wait_OSC32KS, wait_PITSTATUS]

/-- C5. `rtcIntSemaphore` has a single writer. `setup`, `initSerialGPIO`,
`init32kOscRTCPIT`, `initSleepMode`, `disableAllPeripherals`, the LED and
diagnostic pin operations and `flashByte` leave the variable as it was and log
no store to it. During `sleepNCycles` and during one pass of `loop`, run with
the installed handler, the main flow (the log without the invocations of the
handler) makes no store to it, and the variable ends as the invocations of the
handler alone would leave it. The handler `ISR(RTC_PIT_vect)` stores to it
once, the value 1. -/
theorem rtcIntSemaphore_single_writer :
    ((KeepsSemaphore setup ∧ NoSemaphoreStore setup) ∧
      (KeepsSemaphore initSerialGPIO ∧ NoSemaphoreStore initSerialGPIO) ∧
      (KeepsSemaphore init32kOscRTCPIT ∧ NoSemaphoreStore init32kOscRTCPIT) ∧
      (KeepsSemaphore initSleepMode ∧ NoSemaphoreStore initSleepMode) ∧
      (KeepsSemaphore disableAllPeripherals ∧ NoSemaphoreStore disableAllPeripherals) ∧
      (KeepsSemaphore ledOn ∧ NoSemaphoreStore ledOn) ∧
      (KeepsSemaphore ledOff ∧ NoSemaphoreStore ledOff) ∧
      (KeepsSemaphore ledToggle ∧ NoSemaphoreStore ledToggle) ∧
      (KeepsSemaphore diagnosticPinHigh ∧ NoSemaphoreStore diagnosticPinHigh) ∧
      (KeepsSemaphore diagnosticPinLow ∧ NoSemaphoreStore diagnosticPinLow) ∧
      (KeepsSemaphore diagnosticPinToggle ∧ NoSemaphoreStore diagnosticPinToggle) ∧
      (∀ val, KeepsSemaphore (flashByte val) ∧ NoSemaphoreStore (flashByte val))) ∧
    (∀ val s,
      writesTo .rtcIntSemaphore (mainFlow none (since s (sleepNCycles ISR_RTC_PIT val s))) = [] ∧
      (sleepNCycles ISR_RTC_PIT val s).regs.rtcIntSemaphore =
        (ISR_RTC_PIT^[val % 256] s).regs.rtcIntSemaphore) ∧
    (∀ s,
      writesTo .rtcIntSemaphore (mainFlow none (since s (loop_body ISR_RTC_PIT s))) = [] ∧
      (loop_body ISR_RTC_PIT s).regs.rtcIntSemaphore =
        (ISR_RTC_PIT^[14] s).regs.rtcIntSemaphore) ∧
    (∀ s, (ISR_RTC_PIT s).regs.rtcIntSemaphore = 1 ∧
      writesTo .rtcIntSemaphore (since s (ISR_RTC_PIT s)) = [1]) := by
  refine ⟨⟨⟨keeps_setup, nostore_setup.2⟩, ⟨initSerialGPIO_keeps, initSerialGPIO_nostore.2⟩,
    ⟨keeps_init32kOscRTCPIT, nostore_init32kOscRTCPIT.2⟩,
    ⟨keeps_initSleepMode, nostore_initSleepMode.2⟩,
    ⟨keeps_disableAllPeripherals, nostore_disableAllPeripherals.2⟩,
    ⟨keeps_ledOn, nostore_ledOn.2⟩, ⟨keeps_ledOff, nostore_ledOff.2⟩,
    ⟨keeps_ledToggle, nostore_ledToggle.2⟩,
    ⟨keeps_diagnosticPinHigh, nostore_diagnosticPinHigh.2⟩,
    ⟨keeps_diagnosticPinLow, nostore_diagnosticPinLow.2⟩,
    ⟨keeps_diagnosticPinToggle, nostore_diagnosticPinToggle.2⟩,
    fun val => ⟨keeps_call _ (keeps_flashByte_for _ _ _), (nostore_flashByte val).2⟩⟩,
    fun val s => ⟨?_, sem_sleepNCycles val s⟩, fun s => ⟨?_, sem_loop_body s⟩,
    fun s => ⟨sets_ISR_RTC_PIT s, ?_⟩⟩
  · rw [(mainflow_sleepNCycles val).1.since]
    exact ((mainflow_sleepNCycles val).2 s none (fun d hd => by simp at hd)).1
  · rw [mainflow_loop_body.1.since]
    exact (mainflow_loop_body.2 s none (fun d hd => by simp at hd)).1
  · rw [local_ISR_RTC_PIT.since]
    exact writesTo_ISR_RTC_PIT s

/-- C5 at `sleepNCycles(3)` from the reset state, with the installed handler:
the log holds three stores of 1 to the variable, none of them in the main flow,
and the variable ends at 1. -/
theorem rtcIntSemaphore_single_writer_witness :
    writesTo .rtcIntSemaphore (since (boot regs0) (sleepNCycles ISR_RTC_PIT 3 (boot regs0))) =
      [1, 1, 1] ∧
    writesTo .rtcIntSemaphore
      (mainFlow none (since (boot regs0) (sleepNCycles ISR_RTC_PIT 3 (boot regs0)))) = [] ∧
    (sleepNCycles ISR_RTC_PIT 3 (boot regs0)).regs.rtcIntSemaphore = 1 :=
  ⟨by decide, (rtcIntSemaphore_single_writer.2.1 3 (boot regs0)).1,
    (rtcIntSemaphore_single_writer.2.1 3 (boot regs0)).2⟩

/-- C9. For every byte `v`, the body of `flashByte(v)` makes exactly eight
pulses `ledOn, delay(d), ledOff, delay(1000)`, the `i`-th (from 0) with
`d = 700` if bit `i` of `v` is one and `d = 100` if it is zero: least
significant bit first, most significant bit last. -/
theorem flashByte_pulses (v : Nat) (hv : v ≤ 255) (s : Machine) :
    eventsAt (s.depth + 1) (since s (flashByte v s)) =
      pulse (v.testBit 0) ++ pulse (v.testBit 1) ++ pulse (v.testBit 2) ++ pulse (v.testBit 3) ++
      pulse (v.testBit 4) ++ pulse (v.testBit 5) ++ pulse (v.testBit 6) ++ pulse (v.testBit 7) := by
  have hmod : v % 256 = v := Nat.mod_eq_of_lt (by omega)
  rw [(local_flashByte v).since]
  unfold flashByte
  rw [eventsAt_call_body _ (local_flashByte_for _ _ _), hmod]
  have := shows_flashByte_for 9 0 v (by omega) (by omega) (by omega) ⟨s.regs, s.depth + 1, []⟩
  rw [this]
  simp [List.range_succ, List.flatMap_append]

/-- C9 at `v = 5` (binary 00000101): long, short, long, then five short. -/
theorem flashByte_pulses_witness :
    (5 : Nat) ≤ 255 ∧
    eventsAt ((boot regs0).depth + 1) (since (boot regs0) (flashByte 5 (boot regs0))) =
      [.ledOn, .delay 700, .ledOff, .delay 1000, .ledOn, .delay 100, .ledOff, .delay 1000,
       .ledOn, .delay 700, .ledOff, .delay 1000, .ledOn, .delay 100, .ledOff, .delay 1000,
       .ledOn, .delay 100, .ledOff, .delay 1000, .ledOn, .delay 100, .ledOff, .delay 1000,
       .ledOn, .delay 100, .ledOff, .delay 1000, .ledOn, .delay 100, .ledOff, .delay 1000] :=
  ⟨by decide, flashByte_pulses 5 (by decide) (boot regs0)⟩

/-- C10. In the log of `setup()` followed by any number `k` of passes of
`loop()`, from any register state at reset: at every `sleep_cpu()` halt the
last Output Driver operation before it was `ledOff`, the PA1 output latch is
low and PA1 is an input; at every `ledOn()` call PA1 is an output. -/
theorem never_halts_lit (k : Nat) (r : Regs) (before after : List Entry) (x : Entry)
    (h : (run k r).trace = before ++ x :: after) :
    (x.ev = .sleep_cpu →
      lastLedOp none before = some .ledOff ∧
      x.regs.PORTA_OUT.testBit 1 = false ∧ x.regs.PORTA_DIR.testBit 1 = false) ∧
    (x.ev = .ledOn → x.regs.PORTA_DIR.testBit 1 = true) :=
  logOk_split (logOk_run k r) h

set_option maxRecDepth 100000 in
/-- C10 at the first halt of the first pass, starting from `regs0`. -/
theorem never_halts_lit_witness :
    (run 1 regs0).trace =
      (run 1 regs0).trace.take 35 ++ firstHalt :: (run 1 regs0).trace.drop 36 ∧
    (lastLedOp none ((run 1 regs0).trace.take 35) = some .ledOff ∧
      firstHalt.regs.PORTA_OUT.testBit 1 = false ∧ firstHalt.regs.PORTA_DIR.testBit 1 = false) :=
  ⟨by decide,
    (never_halts_lit 1 regs0 ((run 1 regs0).trace.take 35) ((run 1 regs0).trace.drop 36)
      firstHalt (by decide)).1 rfl⟩

end Lighthouse
